import Mathlib

/-!
A shallow embedding of the rural-property registry request core
(`src/code/lambda_function.py`): the payload validators, the polygon
geometry check, the owner-scoped store adapter, the statistics
aggregator and the router/handlers, together with proofs about them.

Conventions of the embedding:
* Python `Decimal` and `float` values are modelled over exact rationals
  extended with `inf`, `ninf` and `nan` (`PyDec`).  Conversions to double
  (`float(...)`) are modelled bit-faithfully: round-to-nearest-even onto
  the binary64 grid (`floatRoundMag`), underflow to `0.0`, `OverflowError`
  for ints and saturation to `±inf` for the string/`Decimal` conversion
  path.  `Decimal` arithmetic itself is kept exact (its 28-digit context
  rounding is not modelled, as disclosed at `PyDec.decAdd`).
* A fallible Python expression is modelled with `Option`/sum results;
  `none` stands for a raised exception at that point.
* Each invocation is a single sequential unit of work: the DynamoDB table
  is threaded through the handlers as an explicit `Store` value.
-/

set_option autoImplicit false
set_option maxRecDepth 20000

namespace PropReg

/-- Rational addition written via `mkRat`, so that concrete instances
evaluate inside `decide` (Mathlib's field instances do not whnf-reduce);
`qAdd_eq` identifies it with `+`. -/
def qAdd (a b : ℚ) : ℚ := mkRat (a.num * b.den + b.num * a.den) (a.den * b.den)

/-- Rational multiplication via `mkRat`; `qMul_eq` identifies it with `*`. -/
def qMul (a b : ℚ) : ℚ := mkRat (a.num * b.num) (a.den * b.den)

/-- Rational negation via `mkRat`; `qNeg_eq` identifies it with negation. -/
def qNeg (a : ℚ) : ℚ := mkRat (-a.num) a.den

/-- Rational division by a natural via `mkRat`; `qDivNat_eq`. -/
def qDivNat (a : ℚ) (n : ℕ) : ℚ := mkRat a.num (a.den * n)

theorem qAdd_eq (a b : ℚ) : qAdd a b = a + b := by
  rw [qAdd, Rat.mkRat_eq_div]
  push_cast
  conv_rhs => rw [← Rat.num_div_den a, ← Rat.num_div_den b]
  rw [div_add_div _ _ (by exact_mod_cast a.den_nz) (by exact_mod_cast b.den_nz)]
  ring_nf

theorem qMul_eq (a b : ℚ) : qMul a b = a * b := by
  rw [qMul, Rat.mkRat_eq_div]
  push_cast
  conv_rhs => rw [← Rat.num_div_den a, ← Rat.num_div_den b]
  rw [div_mul_div_comm]

theorem qNeg_eq (a : ℚ) : qNeg a = -a := by
  rw [qNeg, Rat.mkRat_eq_div]
  push_cast
  rw [neg_div, Rat.num_div_den]

theorem qDivNat_eq (a : ℚ) (n : ℕ) : qDivNat a n = a / (n : ℚ) := by
  rw [qDivNat, Rat.mkRat_eq_div]
  push_cast
  rw [← div_div, Rat.num_div_den]

/-- Extended numeric domain shared by the models of Python `Decimal` and
`float`: an exact rational, or one of the special values. -/
inductive PyDec where
  | fin (q : ℚ)
  | inf
  | ninf
  | nan
  deriving DecidableEq, Repr

/-- Numeric equality (`==`) on `PyDec`: NaN compares unequal to everything,
including itself; finite values compare by exact value. -/
def PyDec.numEq : PyDec → PyDec → Bool
  | .fin a, .fin b => a == b
  | .inf, .inf => true
  | .ninf, .ninf => true
  | _, _ => false

/-- Decimal ordered comparison `d <= q`: Python's `Decimal` raises
`InvalidOperation` (modelled as `none`) when an operand is a NaN. -/
def PyDec.decLe : PyDec → ℚ → Option Bool
  | .fin x, q => some (decide (x ≤ q))
  | .inf, _ => some false
  | .ninf, _ => some true
  | .nan, _ => none

/-- Decimal ordered comparison `d > q`, raising on NaN as `decLe` does. -/
def PyDec.decGt : PyDec → ℚ → Option Bool
  | .fin x, q => some (decide (q < x))
  | .inf, _ => some true
  | .ninf, _ => some false
  | .nan, _ => none

/-- Float ordered comparison `lo <= d` as Python evaluates it on floats:
comparisons against NaN are `False` and never raise. -/
def PyDec.geF (d : PyDec) (lo : ℚ) : Bool :=
  match d with
  | .fin x => decide (lo ≤ x)
  | .inf => true
  | .ninf => false
  | .nan => false

/-- Float ordered comparison `d <= hi`, NaN yielding `False`. -/
def PyDec.leF (d : PyDec) (hi : ℚ) : Bool :=
  match d with
  | .fin x => decide (x ≤ hi)
  | .inf => false
  | .ninf => true
  | .nan => false

/-- The value of a Python `bool` used as a number (`True == 1`). -/
def boolNum (b : Bool) : PyDec := .fin (if b then 1 else 0)

/-- Magnitude threshold at and beyond which conversion to double leaves the
finite range: the midpoint between the largest finite double and `2^1024`.
Round-to-nearest-even sends the midpoint itself up, so `float(int)` raises
`OverflowError` and the string/`Decimal` conversion path saturates to
`±inf` exactly when `maxDouble ≤ |q|`. -/
def maxDouble : ℚ := ((2 ^ 1024 - 2 ^ 970 : ℕ) : ℚ)

/-- Positive magnitudes at or below this threshold (half the smallest
subnormal) round to `0.0` under conversion to double. -/
def tinyDouble : ℚ := mkRat 1 (2 ^ 1075)

/-- `2^e` as an exact rational, for an integer exponent; `qpow2_eq_zpow`. -/
def qpow2 (e : ℤ) : ℚ :=
  if 0 ≤ e then ((2 ^ e.toNat : ℕ) : ℚ) else mkRat 1 (2 ^ (-e).toNat)

/-- Floor of a rational (kernel-computable). -/
def qFloorZ (x : ℚ) : ℤ := Int.fdiv x.num (x.den : ℤ)

/-- Round a rational to the nearest integer, ties to even. -/
def roundHalfEven (x : ℚ) : ℤ :=
  if qAdd x (qNeg (mkRat (qFloorZ x) 1)) < mkRat 1 2 then qFloorZ x
  else if mkRat 1 2 < qAdd x (qNeg (mkRat (qFloorZ x) 1)) then qFloorZ x + 1
  else if qFloorZ x % 2 = 0 then qFloorZ x else qFloorZ x + 1

/-- Bisection for the binade exponent `e` with `qpow2 e ≤ x < qpow2 (e+1)`;
see `expSearch_correct`. -/
def expSearch : ℕ → ℤ → ℤ → ℚ → ℤ
  | 0, lo, _, _ => lo
  | fuel+1, lo, hi, x =>
    if (hi - lo).toNat ≤ 1 then lo
    else
      let mid := lo + (((hi - lo).toNat / 2 : ℕ) : ℤ)
      if qpow2 mid ≤ x then expSearch fuel mid hi x else expSearch fuel lo mid x

/-- The exponent of the rounding-grid spacing at magnitude `x`: `e - 52`
in the binade `2^e ≤ x < 2^(e+1)` for normals, `-1074` for subnormals. -/
def gridExp (x : ℚ) : ℤ := max (expSearch 16 (-1075) 1024 x - 52) (-1074)

/-- IEEE-754 round-to-nearest-even of a positive rational onto the binary64
grid (normal and subnormal spacing; callers keep the magnitude below
`2^1024`).  Magnitudes at or below `tinyDouble` round to `0`. -/
def floatRoundPos (x : ℚ) : ℚ :=
  if x ≤ tinyDouble then 0
  else
    qMul (mkRat (roundHalfEven (qMul x (qpow2 (-(gridExp x))))) 1)
      (qpow2 (gridExp x))

/-- Sign-symmetric correct rounding to the double grid. -/
def floatRoundMag (q : ℚ) : ℚ :=
  if q < 0 then qNeg (floatRoundPos (qNeg q)) else floatRoundPos q

/-- `float(q)` for an int (or an exact float) `q`: the correctly rounded
double value; `none` models the `OverflowError` raised when the rounded
magnitude leaves double range (`maxDouble ≤ |q|`, the tie rounding up). -/
def pyFloatOfRat (q : ℚ) : Option PyDec :=
  if maxDouble ≤ q then none
  else if q ≤ qNeg maxDouble then none
  else some (.fin (floatRoundMag q))

/-- `float(s)` / `float(Decimal(q))`: CPython converts Decimals through
their string representation, which rounds identically but saturates to
`±inf` beyond double range instead of raising. -/
def strToFloat (q : ℚ) : PyDec :=
  if maxDouble ≤ q then .inf
  else if q ≤ qNeg maxDouble then .ninf
  else .fin (floatRoundMag q)

/-- The Python `str.isspace` characters: the set `str.strip()` (with no
argument) and the `Decimal` constructor strip from both ends. -/
def pwsChar (c : Char) : Bool :=
  (9 ≤ c.toNat && c.toNat ≤ 13) || (28 ≤ c.toNat && c.toNat ≤ 32) ||
  c.toNat = 0x85 || c.toNat = 0xA0 || c.toNat = 0x1680 ||
  (0x2000 ≤ c.toNat && c.toNat ≤ 0x200A) ||
  c.toNat = 0x2028 || c.toNat = 0x2029 || c.toNat = 0x202F ||
  c.toNat = 0x205F || c.toNat = 0x3000

/-- The whitespace `float(s)` accepts around the number: `str.isspace`
without the four ASCII separator controls `\x1c`–`\x1f`. -/
def fwsChar (c : Char) : Bool :=
  (9 ≤ c.toNat && c.toNat ≤ 13) || c.toNat = 32 ||
  c.toNat = 0x85 || c.toNat = 0xA0 || c.toNat = 0x1680 ||
  (0x2000 ≤ c.toNat && c.toNat ≤ 0x200A) ||
  c.toNat = 0x2028 || c.toNat = 0x2029 || c.toNat = 0x202F ||
  c.toNat = 0x205F || c.toNat = 0x3000

/-- Drop the given whitespace from both ends. -/
def trimWith (ws : Char → Bool) (l : List Char) : List Char :=
  ((l.dropWhile ws).reverse.dropWhile ws).reverse

/-- `str.strip()` with no arguments: drops `str.isspace` characters from
both ends. -/
def trimCharList (l : List Char) : List Char := trimWith pwsChar l

/-- First codepoints of the Unicode `Nd` decimal-digit runs; every run is
ten consecutive codepoints carrying the digit values 0–9 in order. -/
def ndBases : List ℕ := [
  0x30, 0x660, 0x6F0, 0x7C0, 0x966, 0x9E6, 0xA66, 0xAE6, 0xB66, 0xBE6,
  0xC66, 0xCE6, 0xD66, 0xDE6, 0xE50, 0xED0, 0xF20, 0x1040, 0x1090, 0x17E0,
  0x1810, 0x1946, 0x19D0, 0x1A80, 0x1A90, 0x1B50, 0x1BB0, 0x1C40, 0x1C50,
  0xA620, 0xA8D0, 0xA900, 0xA9D0, 0xA9F0, 0xAA50, 0xABF0, 0xFF10, 0x104A0,
  0x10D30, 0x11066, 0x110F0, 0x11136, 0x111D0, 0x112F0, 0x11450, 0x114D0,
  0x11650, 0x116C0, 0x11730, 0x118E0, 0x11950, 0x11C50, 0x11D50, 0x11DA0,
  0x16A60, 0x16AC0, 0x16B50, 0x1D7CE, 0x1D7D8, 0x1D7E2, 0x1D7EC, 0x1D7F6,
  0x1E140, 0x1E2F0, 0x1E950, 0x1FBF0]

/-- The Unicode decimal-digit (`Nd`) value of a character, `none` for
non-digits. -/
def udigitVal (c : Char) : Option ℕ :=
  (ndBases.find? (fun b => b ≤ c.toNat && c.toNat ≤ b + 9)).map
    (fun b => c.toNat - b)

/-- CPython's numeric-string transform: `Nd` digits map to their ASCII
digit, accepted whitespace maps to a space, every other character is
kept. -/
def normNumChar (ws : Char → Bool) (c : Char) : Char :=
  match udigitVal c with
  | some v => Char.ofNat (48 + v)
  | none => if ws c then ' ' else c

/-- PEP 515 underscore removal as `float()` applies it: every underscore
must sit between two ASCII digits (checked after the transform), and is
then dropped. -/
def remUnderscores : Option Char → List Char → Option (List Char)
  | _, [] => some []
  | prev, c :: rest =>
    if c = '_' then
      match prev, rest with
      | some p, n :: _ =>
        if p.isDigit && n.isDigit then remUnderscores (some c) rest else none
      | _, _ => none
    else
      (remUnderscores (some c) rest).map (fun l => c :: l)

/-- ASCII lowering of one character (`str.lower()` restricted to the ASCII
range used by the numeric keywords). -/
def lowerChar (c : Char) : Char := c.toLower

/-- Numeric value of a decimal-digit character. -/
def digitVal (c : Char) : ℕ := c.toNat - 48

/-- Value of a digit string read in base 10. -/
def digitsToNat (l : List Char) : ℕ :=
  l.foldl (fun n c => 10 * n + digitVal c) 0

/-- All characters are ASCII decimal digits. -/
def allDigits (l : List Char) : Bool := l.all (fun c => c.isDigit)

/-- Split a character list at the first character satisfying `sep`;
`none` when no such character occurs. -/
def splitAtChar (sep : Char → Bool) : List Char → Option (List Char × List Char)
  | [] => none
  | c :: cs =>
    if sep c then some ([], cs)
    else
      match splitAtChar sep cs with
      | some (a, b) => some (c :: a, b)
      | none => none

/-- Strip one optional leading sign; returns (isNegative, rest). -/
def stripSign : List Char → Bool × List Char
  | '-' :: cs => (true, cs)
  | '+' :: cs => (false, cs)
  | cs => (false, cs)

/-- Parse an unsigned mantissa `digits[.digits]` (at least one digit overall)
into an exact rational. -/
def parseMantissa (cs : List Char) : Option ℚ :=
  match splitAtChar (fun c => c = '.') cs with
  | none =>
    if !cs.isEmpty && allDigits cs then some ((digitsToNat cs : ℕ) : ℚ) else none
  | some (ip, fp) =>
    if (!ip.isEmpty || !fp.isEmpty) && allDigits ip && allDigits fp then
      some (mkRat ((digitsToNat (ip ++ fp) : ℕ) : ℤ) (10 ^ fp.length))
    else none

/-- Parse a signed exponent part (after the `e`). -/
def parseExpo (cs : List Char) : Option ℤ :=
  let sp := stripSign cs
  if !sp.2.isEmpty && allDigits sp.2 then
    some (if sp.1 then -((digitsToNat sp.2 : ℕ) : ℤ) else ((digitsToNat sp.2 : ℕ) : ℤ))
  else none

/-- `10^e` as an exact rational, for an integer exponent. -/
def pow10 (e : ℤ) : ℚ :=
  if 0 ≤ e then ((10 ^ e.toNat : ℕ) : ℚ) else mkRat 1 (10 ^ (-e).toNat)

/-- The numeric-string core grammar, applied after per-constructor
preprocessing: optional sign, `digits[.digits][e[sign]digits]`, or the
special names `inf`/`infinity`/`nan` (case-insensitive).  With
`allowPayload`, Decimal's payloaded `nan`/`snan` forms are also accepted
(modelled as NaN: every ordered use raises either way). -/
def parseNumCore (allowPayload : Bool) (t : List Char) : Option PyDec :=
  let sp := stripSign t
  let body : String := String.mk sp.2
  if body = "inf" || body = "infinity" then some (if sp.1 then .ninf else .inf)
  else if body = "nan" then some (.nan)
  else if allowPayload && (match sp.2 with
      | 'n' :: 'a' :: 'n' :: rest => allDigits rest
      | 's' :: 'n' :: 'a' :: 'n' :: rest => allDigits rest
      | _ => false) then some (.nan)
  else
    match splitAtChar (fun c => c = 'e') sp.2 with
    | none =>
      (parseMantissa sp.2).map (fun m => .fin (if sp.1 then qNeg m else m))
    | some (mp, ep) =>
      match parseMantissa mp, parseExpo ep with
      | some m, some e => some (.fin (qMul (if sp.1 then qNeg m else m) (pow10 e)))
      | _, _ => none

/-- `float(s)`: the unicode digit/space transform, surrounding-whitespace
strip, PEP 515 underscore handling, then the grammar; a failure anywhere
is the `ValueError` the callers catch. -/
def parseFloatStr (s : String) : Option PyDec :=
  let t := trimWith fwsChar (s.data.map (normNumChar fwsChar))
  match remUnderscores none t with
  | none => none
  | some t2 => parseNumCore false (t2.map lowerChar)

/-- `Decimal(s)`: the unicode digit/space transform, whitespace strip, then
the grammar with every underscore removed wholesale (the C implementation
skips them unconditionally) and payloaded NaNs allowed. -/
def parseDecStr (s : String) : Option PyDec :=
  let t := trimWith pwsChar (s.data.map (normNumChar pwsChar))
  parseNumCore true ((t.filter (fun c => !(c = '_'))).map lowerChar)

/-- Python values flowing through the handlers: JSON payload values plus the
`Decimal` objects used for storage.  `num` covers Python ints and floats
(their distinction is immaterial to every verified path). -/
inductive Val where
  | null
  | bool (b : Bool)
  | num (x : PyDec)
  | dec (d : PyDec)
  | str (s : String)
  | arr (l : List Val)
  | obj (l : List (String × Val))
  deriving Repr

mutual

/-- Python `==` on the values above.  Booleans, ints, floats and Decimals
compare numerically across types (`True == 1`, `Decimal("1") == 1.0`); NaN is
unequal to everything; lists compare pointwise.  Dict `==` is modelled as
same-order pointwise equality — real dicts compare order-insensitively, but
no verified path compares dicts whose key order differs. -/
def pyEq : Val → Val → Bool
  | .null, .null => true
  | .bool a, .bool b => a == b
  | .bool a, .num x => (boolNum a).numEq x
  | .bool a, .dec d => (boolNum a).numEq d
  | .num x, .bool b => x.numEq (boolNum b)
  | .dec d, .bool b => d.numEq (boolNum b)
  | .num a, .num b => a.numEq b
  | .num a, .dec b => a.numEq b
  | .dec a, .num b => a.numEq b
  | .dec a, .dec b => a.numEq b
  | .str a, .str b => a == b
  | .arr a, .arr b => pyEqList a b
  | .obj a, .obj b => pyEqFields a b
  | _, _ => false

/-- Pointwise Python `==` on lists. -/
def pyEqList : List Val → List Val → Bool
  | [], [] => true
  | a :: as, b :: bs => pyEq a b && pyEqList as bs
  | _, _ => false

/-- Pointwise Python `==` on dict entries (same key order). -/
def pyEqFields : List (String × Val) → List (String × Val) → Bool
  | [], [] => true
  | (k, v) :: as, (k2, v2) :: bs => k == k2 && pyEq v v2 && pyEqFields as bs
  | _, _ => false

end

/-- Python truthiness: `None`, `False`, numeric zero, empty strings and empty
containers are falsy; NaN and infinities are truthy. -/
def truthy : Val → Bool
  | .null => false
  | .bool b => b
  | .num x => !(x.numEq (.fin 0))
  | .dec d => !(d.numEq (.fin 0))
  | .str s => !(s == "")
  | .arr l => !l.isEmpty
  | .obj l => !l.isEmpty

/-- First-match association-list lookup (Python dict access by string key;
the dicts built by this code never carry duplicate keys). -/
def flook (l : List (String × Val)) (k : String) : Option Val :=
  match l with
  | [] => none
  | (k2, v) :: rest => if k2 = k then some v else flook rest k

/-- `d.get(key, default)`: `none` models the `AttributeError` raised when the
receiver is not a dict. -/
def Val.dget : Val → String → Val → Option Val
  | .obj l, k, dflt => some ((flook l k).getD dflt)
  | _, _, _ => none

/-- `d[key]` with a string key: `none` models the exception raised when the
receiver is not a dict (`TypeError`) or the key is absent (`KeyError`). -/
def Val.subscr : Val → String → Option Val
  | .obj l, k => flook l k
  | _, _ => none

/-- `a` occurs as a contiguous substring of `b` (Python `a in b` on strings). -/
def substrAux (a : List Char) : List Char → Bool
  | [] => a.isEmpty
  | c :: cs => List.isPrefixOf a (c :: cs) || substrAux a cs

/-- Python `k in container` for a string `k`: dict key membership, list
membership via `==`, substring test on strings; `none` models the
`TypeError` raised on other receivers. -/
def pyInStr (k : String) : Val → Option Bool
  | .obj l => some (l.any (fun p => p.1 == k))
  | .arr l => some (l.any (fun v => pyEq (.str k) v))
  | .str s => some (substrAux k.data s.data)
  | _ => none

/-- Python `len(v)`: `none` models the `TypeError` raised on numbers,
booleans and `None`. -/
def pyLen : Val → Option ℕ
  | .str s => some s.length
  | .arr l => some l.length
  | .obj l => some l.length
  | _ => none

/-- `v.strip()`: `none` models the `AttributeError` on non-strings. -/
def pyStrip : Val → Option String
  | .str s => some (String.mk (trimCharList s.data))
  | _ => none

/-- Models `Decimal(str(v))`: `none` when the `Decimal` constructor raises.
`str` of an int/float reproduces its exact value in this embedding (shortest
round-trip repr) and `str` of a `Decimal` round-trips; `str` of `None`,
booleans, lists and dicts never parses as a number. -/
def toDec : Val → Option PyDec
  | .num x => some x
  | .dec d => some d
  | .str s => parseDecStr s
  | _ => none

/-- Models `float(v)`: identity on floats; correctly rounded on ints with
`OverflowError` (`none`) beyond double range; correctly rounded and
saturating to ±inf on Decimals and numeric strings (both converted through
the string path); booleans convert to `1.0`/`0.0`; `TypeError` (`none`)
otherwise. -/
def toFloat : Val → Option PyDec
  | .num (.fin q) => pyFloatOfRat q
  | .num x => some x
  | .dec (.fin q) => some (strToFloat q)
  | .dec d => some d
  | .bool b => some (boolNum b)
  | .str s =>
    match parseFloatStr s with
    | some (.fin q) => some (strToFloat q)
    | r => r
  | _ => none

/-- A stored DynamoDB item: an attribute map. -/
abbrev Item := List (String × Val)

/-- Composite key `(userId, propertyId)`. -/
abbrev DbKey := String × String

/-- The properties table, threaded explicitly through the handlers. -/
abbrev Store := List (DbKey × Item)

/-- Point lookup (`get_item`). -/
def Store.getItem (s : Store) (k : DbKey) : Option Item :=
  match s with
  | [] => none
  | (k2, it) :: rest => if k2 = k then some it else Store.getItem rest k

/-- Unconditional upsert (`put_item`). -/
def Store.putItem (s : Store) (k : DbKey) (it : Item) : Store :=
  match s with
  | [] => [(k, it)]
  | (k2, it2) :: rest =>
    if k2 = k then (k, it) :: rest else (k2, it2) :: Store.putItem rest k it

/-- Physical removal of a key (table keys are unique, so removing every
binding of the key is the same as removing the one binding). -/
def Store.eraseItem : Store → DbKey → Store
  | [], _ => []
  | kv :: rest, k =>
    if kv.1 = k then Store.eraseItem rest k else kv :: Store.eraseItem rest k

/-- DynamoDB `SET attr = value` on an item: replace or append the attribute. -/
def Item.setA (it : Item) (k : String) (v : Val) : Item :=
  match it with
  | [] => [(k, v)]
  | (k2, v2) :: rest =>
    if k2 = k then (k, v) :: rest else (k2, v2) :: Item.setA rest k v

/-- Outcome of a validator (or of one of its blocks): the returned verdict,
or an uncaught Python exception escaping the function. -/
inductive VResult where
  | valid
  | invalid (msg : String)
  | exn
  deriving DecidableEq, Repr

def msgNameMin : String := "Nome deve ter pelo menos 2 caracteres"

def msgNameMax : String := "Nome deve ter no máximo 100 caracteres"

def msgAreaNum : String := "Área deve ser um número válido"

def msgAreaPos : String := "Área deve ser maior que zero"

def msgAreaMax : String := "Área muito grande (máximo 1.000.000 hectares)"

def msgPerimNum : String := "Perímetro deve ser um número válido"

def msgPerimPos : String := "Perímetro deve ser maior que zero"

def msgCoords : String := "Coordenadas em formato inválido"

def msgType : String := "Tipo inválido. Use: fazenda, sitio, chacara, terreno, outros"

def msgDesc : String := "Descrição deve ter no máximo 500 caracteres"

def msgEmptyUpdate : String := "Pelo menos um campo deve ser fornecido para atualização"

def msgRequired (f : String) : String := "Campo obrigatório: " ++ f

def valid_types : List String := ["fazenda", "sitio", "chacara", "terreno", "outros"]

/-- One point of the ring: must be exactly a 2-element list whose entries
convert with `float()` (parse failures and `TypeError` are caught and fail
the point) with longitude in [-180,180] and latitude in [-90,90].  NaN fails
the bound test (`not (-180 <= nan)` is true); infinities fail it too. -/
def validPoint (c : Val) : Bool :=
  match c with
  | .arr [a, b] =>
    match toFloat a, toFloat b with
    | some lon, some lat =>
      lon.geF (-180) && lon.leF 180 && lat.geF (-90) && lat.leF 90
    | _, _ => false
  | _ => false

/-- `validate_coordinates`: a list of at least 4 points, every point valid,
and the first point `==` the last point; any other shape (and any exception,
via the catch-all) yields `False`. -/
def validate_coordinates (v : Val) : Bool :=
  match v with
  | .arr cs =>
    if cs.length < 4 then false
    else if !(cs.all validPoint) then false
    else
      match cs.head?, cs.getLast? with
      | some a, some b => pyEq a b
      | _, _ => false
  | _ => false

def required_fields : List String := ["name", "area", "perimeter", "coordinates"]

/-- The required-fields loop of `validate_property_data`: first missing
field wins; `in` on a non-container raises. -/
def firstMissing (data : Val) : List String → VResult
  | [] => .valid
  | f :: rest =>
    match pyInStr f data with
    | none => .exn
    | some true => firstMissing data rest
    | some false => .invalid (msgRequired f)

def checkRequired (data : Val) : VResult := firstMissing data required_fields

/-- The name block: `data.get("name", "").strip()` (raising on a non-string
name, see C10), then the trimmed-length bounds. -/
def checkName (data : Val) : VResult :=
  match Val.dget data ("name") (.str "") with
  | none => .exn
  | some nv =>
    match pyStrip nv with
    | none => .exn
    | some name =>
      if name == "" || name.length < 2 then .invalid msgNameMin
      else if 100 < name.length then .invalid msgNameMax
      else .valid

/-- The area block shared verbatim by creation and update validation,
applied to the supplied value: `Decimal(str(v))`, then `<= 0`, then
`> 1000000`; both the constructor failure and the `InvalidOperation`
raised by comparing a NaN are caught by the same `except` clause. -/
def checkAreaVal (v : Val) : VResult :=
  match toDec v with
  | none => .invalid msgAreaNum
  | some area =>
    match area.decLe 0 with
    | none => .invalid msgAreaNum
    | some true => .invalid msgAreaPos
    | some false =>
      match area.decGt 1000000 with
      | none => .invalid msgAreaNum
      | some true => .invalid msgAreaMax
      | some false => .valid

def checkArea (data : Val) : VResult :=
  match Val.subscr data ("area") with
  | none => .exn
  | some v => checkAreaVal v

/-- The perimeter block shared by creation and update validation: positive,
no upper bound. -/
def checkPerimeterVal (v : Val) : VResult :=
  match toDec v with
  | none => .invalid msgPerimNum
  | some p =>
    match p.decLe 0 with
    | none => .invalid msgPerimNum
    | some true => .invalid msgPerimPos
    | some false => .valid

def checkPerimeter (data : Val) : VResult :=
  match Val.subscr data ("perimeter") with
  | none => .exn
  | some v => checkPerimeterVal v

/-- The coordinates block: `data.get("coordinates")` then the geometry
check, all failure modes collapsed into one message. -/
def checkCoordinates (data : Val) : VResult :=
  match Val.dget data ("coordinates") (.null) with
  | none => .exn
  | some c => if validate_coordinates c then .valid else .invalid msgCoords

/-- The type block: `data.get("type", "fazenda")` must be `in` the closed
enumeration (list membership via `==`, so a non-string never matches). -/
def checkType (data : Val) : VResult :=
  match Val.dget data ("type") (.str "fazenda") with
  | none => .exn
  | some t =>
    if valid_types.any (fun s => pyEq t (.str s)) then .valid
    else .invalid msgType

/-- The description block: `len(data.get("description", ""))` (raising on
numbers/booleans/None) at most 500. -/
def checkDescription (data : Val) : VResult :=
  match Val.dget data ("description") (.str "") with
  | none => .exn
  | some d =>
    match pyLen d with
    | none => .exn
    | some n => if 500 < n then .invalid msgDesc else .valid

/-- `validate_property_data`: the creation validator, a sequence of
early-return blocks in source order. -/
def validate_property_data (data : Val) : VResult :=
  match checkRequired data with
  | .valid =>
    match checkName data with
    | .valid =>
      match checkArea data with
      | .valid =>
        match checkPerimeter data with
        | .valid =>
          match checkCoordinates data with
          | .valid =>
            match checkType data with
            | .valid => checkDescription data
            | r => r
          | r => r
        | r => r
      | r => r
    | r => r
  | r => r

def updatable_fields : List String :=
  ["name", "type", "description", "area", "perimeter", "coordinates"]

/-- `any(field in data for field in updatable_fields)`, short-circuiting,
with a raised `TypeError` propagating. -/
def anyFieldIn (data : Val) : List String → Option Bool
  | [] => some false
  | f :: rest =>
    match pyInStr f data with
    | none => none
    | some true => some true
    | some false => anyFieldIn data rest

/-- The update-name block: runs only when `"name" in data`, and uses
`data["name"].strip()` (no default). -/
def checkUpdName (data : Val) : VResult :=
  match pyInStr ("name") data with
  | none => .exn
  | some false => .valid
  | some true =>
    match Val.subscr data ("name") with
    | none => .exn
    | some nv =>
      match pyStrip nv with
      | none => .exn
      | some name =>
        if name == "" || name.length < 2 then .invalid msgNameMin
        else if 100 < name.length then .invalid msgNameMax
        else .valid

/-- The update-area block: same numeric rule as creation, skipped when the
field is absent. -/
def checkUpdArea (data : Val) : VResult :=
  match pyInStr ("area") data with
  | none => .exn
  | some false => .valid
  | some true =>
    match Val.subscr data ("area") with
    | none => .exn
    | some v => checkAreaVal v

/-- The update-perimeter block. -/
def checkUpdPerimeter (data : Val) : VResult :=
  match pyInStr ("perimeter") data with
  | none => .exn
  | some false => .valid
  | some true =>
    match Val.subscr data ("perimeter") with
    | none => .exn
    | some v => checkPerimeterVal v

/-- The update-coordinates block. -/
def checkUpdCoordinates (data : Val) : VResult :=
  match pyInStr ("coordinates") data with
  | none => .exn
  | some false => .valid
  | some true =>
    match Val.subscr data ("coordinates") with
    | none => .exn
    | some c => if validate_coordinates c then .valid else .invalid msgCoords

/-- The update-type block. -/
def checkUpdType (data : Val) : VResult :=
  match pyInStr ("type") data with
  | none => .exn
  | some false => .valid
  | some true =>
    match Val.subscr data ("type") with
    | none => .exn
    | some t =>
      if valid_types.any (fun s => pyEq t (.str s)) then .valid
      else .invalid msgType

/-- The update-description block. -/
def checkUpdDescription (data : Val) : VResult :=
  match pyInStr ("description") data with
  | none => .exn
  | some false => .valid
  | some true =>
    match Val.subscr data ("description") with
    | none => .exn
    | some d =>
      match pyLen d with
      | none => .exn
      | some n => if 500 < n then .invalid msgDesc else .valid

/-- `validate_update_data`: fails with `EmptyUpdate` when none of the six
mutable fields is present, then validates each present field with the same
rules as creation, in source order. -/
def validate_update_data (data : Val) : VResult :=
  match anyFieldIn data updatable_fields with
  | none => .exn
  | some false => .invalid msgEmptyUpdate
  | some true =>
    match checkUpdName data with
    | .valid =>
      match checkUpdArea data with
      | .valid =>
        match checkUpdPerimeter data with
        | .valid =>
          match checkUpdCoordinates data with
          | .valid =>
            match checkUpdType data with
            | .valid => checkUpdDescription data
            | r => r
          | r => r
        | r => r
      | r => r
    | r => r

/-- Decimal addition; `none` models the `InvalidOperation` raised by
`inf + (-inf)`; NaN absorbs.  Context rounding (28 significant digits) is
modelled as exact: the sums are converted to float (17 digits) at output,
where the difference is invisible on every verified path. -/
def PyDec.decAdd : PyDec → PyDec → Option PyDec
  | .fin a, .fin b => some (.fin (qAdd a b))
  | .nan, _ => some .nan
  | _, .nan => some .nan
  | .inf, .ninf => none
  | .ninf, .inf => none
  | .inf, _ => some .inf
  | _, .inf => some .inf
  | .ninf, _ => some .ninf
  | _, .ninf => some .ninf

/-- Decimal division by the (positive) page length; exact, see `decAdd`. -/
def PyDec.decDivNat : PyDec → ℕ → Option PyDec
  | .fin a, n => if n = 0 then none else some (.fin (qDivNat a n))
  | .nan, _ => some .nan
  | .inf, n => if n = 0 then none else some .inf
  | .ninf, n => if n = 0 then none else some .ninf

/-- Decimal `<` as used by `max`/`min`; never applied to NaN on the verified
paths (a NaN area raises at the `area > 0` test before any list is built),
so its NaN rows are arbitrary. -/
def PyDec.decLt : PyDec → PyDec → Bool
  | .fin a, .fin b => decide (a < b)
  | .fin _, .inf => true
  | .fin _, _ => false
  | .ninf, .ninf => false
  | .ninf, .nan => false
  | .ninf, _ => true
  | .inf, _ => false
  | .nan, _ => false

/-- Python `max` over a list (first maximal element wins). -/
def decMaxList : List PyDec → Option PyDec
  | [] => none
  | a :: rest => some (rest.foldl (fun m x => if PyDec.decLt m x then x else m) a)

/-- Python `min` over a list (first minimal element wins). -/
def decMinList : List PyDec → Option PyDec
  | [] => none
  | a :: rest => some (rest.foldl (fun m x => if PyDec.decLt x m then x else m) a)

/-- `float(d)` for a Decimal `d`: conversion through the string
representation, rounding and saturating to `±inf` beyond double range. -/
def floatOfDec : PyDec → Option PyDec
  | .fin q => some (strToFloat q)
  | d => some d

/-- The accumulation loop of `calculate_stats`: Decimal sums of area and
perimeter and the ordered list of strictly positive areas; any raised
exception (`Decimal` constructor, NaN comparison, `inf + -inf`) is `none`. -/
def statsLoop : List Item → PyDec → PyDec → List PyDec →
    Option (PyDec × PyDec × List PyDec)
  | [], ta, tp, areas => some (ta, tp, areas)
  | p :: rest, ta, tp, areas =>
    match toDec ((flook p ("area")).getD (.num (.fin 0))),
          toDec ((flook p ("perimeter")).getD (.num (.fin 0))) with
    | some a, some pe =>
      match ta.decAdd a, tp.decAdd pe with
      | some ta2, some tp2 =>
        match a.decGt 0 with
        | none => none
        | some true => statsLoop rest ta2 tp2 (areas ++ [a])
        | some false => statsLoop rest ta2 tp2 areas
      | _, _ => none
    | _, _ => none

/-- One step of the `type_counts` dict: bump the bucket matched by `==`, in
first-occurrence insertion order. -/
def bumpType (acc : List (Val × ℕ)) (t : Val) : List (Val × ℕ) :=
  match acc with
  | [] => [(t, 1)]
  | (k, n) :: rest =>
    if pyEq k t then (k, n + 1) :: rest else (k, n) :: bumpType rest t

/-- Hashability of a dict key (lists/dicts raise `TypeError`). -/
def hashable : Val → Bool
  | .arr _ => false
  | .obj _ => false
  | _ => true

/-- The `type_counts` loop over the page, keyed by
`prop.get("type", "outros")`. -/
def typeCounts : List Item → List (Val × ℕ) → Option (List (Val × ℕ))
  | [], acc => some acc
  | p :: rest, acc =>
    let t := (flook p ("type")).getD (.str "outros")
    if hashable t then typeCounts rest (bumpType acc t) else none

/-- Key rendering for embedding `type_counts` into `Val` (string-keyed
objects): the stored `type` is always a validated string, so only the
`.str` row is ever exercised on reachable stores. -/
def typeKeyStr : Val → String
  | .str s => s
  | .bool b => if b then "True" else "False"
  | .null => "None"
  | _ => "?"

/-- The five float conversions at the output edge of `calculate_stats`. -/
def statsFloats (ta tp avg largest smallest : PyDec) :
    Option (PyDec × PyDec × PyDec × PyDec × PyDec) :=
  match floatOfDec ta, floatOfDec tp, floatOfDec avg,
        floatOfDec largest, floatOfDec smallest with
  | some taf, some tpf, some avgf, some lf, some sf =>
    some (taf, tpf, avgf, lf, sf)
  | _, _, _, _, _ => none

/-- The body of `calculate_stats` up to its catch-all. -/
def statsCore (props : List Item) : Option Item :=
  match statsLoop props (.fin 0) (.fin 0) [] with
  | none => none
  | some acc =>
    match typeCounts props [] with
    | none => none
    | some tc =>
      let largest := match decMaxList acc.2.2 with | some m => m | none => .fin 0
      let smallest := match decMinList acc.2.2 with | some m => m | none => .fin 0
      match (if props.isEmpty then some (PyDec.fin 0)
             else acc.1.decDivNat props.length) with
      | none => none
      | some avg =>
        match statsFloats acc.1 acc.2.1 avg largest smallest with
        | none => none
        | some fl =>
          some [
            ("totalProperties", .num (.fin (props.length : ℚ))),
            ("totalArea", .num fl.1),
            ("totalPerimeter", .num fl.2.1),
            ("averageArea", .num fl.2.2.1),
            ("largestProperty", .num fl.2.2.2.1),
            ("smallestProperty", .num fl.2.2.2.2),
            ("typeDistribution",
              .obj (tc.map (fun p => (typeKeyStr p.1, Val.num (.fin (p.2 : ℚ))))))]

/-- `calculate_stats`: Decimal sums, strictly-positive max/min, mean with
empty-page guard, float conversion only at output; any exception inside
yields the empty dict. -/
def calculate_stats (props : List Item) : Item :=
  match statsCore props with
  | some it => it
  | none => []

/-- Elementwise `Decimal(str(·))` over coordinate pairs; non-pair elements
pass through unchanged; a constructor failure raises (`none`). -/
def convDecList : List Val → Option (List Val)
  | [] => some []
  | c :: rest =>
    match c with
    | .arr [a, b] =>
      match toDec a, toDec b, convDecList rest with
      | some da, some db, some tail => some (Val.arr [.dec da, .dec db] :: tail)
      | _, _, _ => none
    | _ =>
      match convDecList rest with
      | some tail => some (c :: tail)
      | none => none

/-- `convert_coordinates_to_decimal`: non-list input passes through. -/
def convert_coordinates_to_decimal (v : Val) : Option Val :=
  match v with
  | .arr l => (convDecList l).map Val.arr
  | _ => some v

/-- Elementwise `float(·)` over coordinate pairs, see `convDecList`. -/
def convFloatList : List Val → Option (List Val)
  | [] => some []
  | c :: rest =>
    match c with
    | .arr [a, b] =>
      match toFloat a, toFloat b, convFloatList rest with
      | some fa, some fb, some tail => some (Val.arr [.num fa, .num fb] :: tail)
      | _, _, _ => none
    | _ =>
      match convFloatList rest with
      | some tail => some (c :: tail)
      | none => none

/-- `convert_coordinates_to_float`. -/
def convert_coordinates_to_float (v : Val) : Option Val :=
  match v with
  | .arr l => (convFloatList l).map Val.arr
  | _ => some v

/-- `format_property_for_response`: the response shape of a stored item,
Decimal fields converted to float; `none` models an exception escaping
(e.g. `OverflowError` from `float`). -/
def format_property_for_response (p : Item) : Option Item :=
  match toFloat ((flook p ("area")).getD (.num (.fin 0))),
        toFloat ((flook p ("perimeter")).getD (.num (.fin 0))),
        convert_coordinates_to_float ((flook p ("coordinates")).getD (.arr [])) with
  | some areaF, some perimF, some coordsF =>
    some [
    ("id", (flook p ("propertyId")).getD .null),
    ("name", (flook p ("name")).getD .null),
    ("type", (flook p ("type")).getD .null),
    ("description", (flook p ("description")).getD (.str "")),
    ("area", .num areaF),
    ("perimeter", .num perimF),
    ("coordinates", coordsF),
      ("analysisStatus", (flook p ("analysisStatus")).getD (.str "pending")),
      ("createdAt", (flook p ("createdAt")).getD .null),
      ("updatedAt", (flook p ("updatedAt")).getD .null)]
  | _, _, _ => none

/-- An HTTP response envelope; `json.dumps` of the body happens at the
transport boundary and is not modelled. -/
structure Response where
  statusCode : ℕ
  headers : List (String × String)
  body : Val
  deriving Repr

def corsHeaders : List (String × String) := [
  ("Content-Type", "application/json"),
  ("Access-Control-Allow-Origin", "*"),
  ("Access-Control-Allow-Headers",
    "Content-Type,X-Amz-Date,Authorization,X-Api-Key,X-Amz-Security-Token"),
  ("Access-Control-Allow-Methods", "GET,POST,PUT,DELETE,OPTIONS")]

/-- `create_response`: fixed CORS headers on every response. -/
def create_response (status : ℕ) (body : Val) : Response :=
  { statusCode := status, headers := corsHeaders, body := body }

/-- Shorthand for the ubiquitous `{"error": msg}` body. -/
def errBody (msg : String) : Val := .obj [("error", .str msg)]

def internalErr : Response := create_response 500 (errBody ("Erro interno do servidor"))

/-- The authorizer context: the three identity sources probed by
`extract_user_id`. -/
structure ReqCtx where
  claimsSub : Option String
  authSub : Option String
  cognitoId : Option String

/-- The request body slot: a string that fails JSON decoding, a present
`None` (`json.loads` then raises `TypeError`), or well-formed JSON. -/
inductive BodySrc where
  | malformed
  | nullBody
  | json (v : Val)

/-- An API-Gateway event, reduced to the fields the router reads. -/
structure Event where
  httpMethod : String
  path : String
  resource : String
  pathParameters : Option (List (String × String))
  queryStringParameters : Option (List (String × String))
  body : Option BodySrc
  requestContext : ReqCtx

/-- Outcome of `json.loads(event.get("body", "{}"))` under the handlers'
inner `except json.JSONDecodeError`. -/
inductive BodyParse where
  | ok (v : Val)
  | decodeErr
  | raised

def parseBody (e : Event) : BodyParse :=
  match e.body with
  | none => .ok (.obj [])
  | some .malformed => .decodeErr
  | some .nullBody => .raised
  | some (.json v) => .ok v

/-- Python `a or b` on optional strings (falsy = `None` or empty). -/
def orTruthyStr (a b : Option String) : Option String :=
  match a with
  | some s => if s = "" then b else some s
  | none => b

/-- `extract_user_id`: probe `claims.sub`, then `authorizer.sub`, then
`identity.cognitoIdentityId` with Python `or`; a falsy final result
returns `None`. -/
def extract_user_id (e : Event) : Option String :=
  match orTruthyStr e.requestContext.claimsSub
        (orTruthyStr e.requestContext.authSub e.requestContext.cognitoId) with
  | none => none
  | some s => if s = "" then none else some s

/-- Per-invocation ambient context: the frozen current time, the stream of
generated property ids, and the external collaborators (PDF renderer,
analysis table) reduced to their observable replies. -/
structure Env where
  now : String
  ids : ℕ → String
  pdfOk : Bool
  pdfData : String
  pdfName : String
  analysisTable : Option (List (String × Val))

/-- String-valued association lookup (path/query parameter maps). -/
def slook (l : List (String × String)) (k : String) : Option String :=
  match l with
  | [] => none
  | (k2, v) :: rest => if k2 = k then some v else slook rest k

/-- `(event.get("pathParameters") or {}).get("id")` combined with the
handlers' `if not property_id` falsy test: `none` means the handler 400s. -/
def pathParamId (e : Event) : Option String :=
  match e.pathParameters with
  | none => none
  | some l =>
    match slook l ("id") with
    | none => none
    | some pid => if pid = "" then none else some pid

/-- `get_existing_property`: owner-scoped point lookup; the `ClientError`
branch (infrastructure faults, also returning `None`) is out of scope. -/
def get_existing_property (s : Store) (uid pid : String) : Option Item :=
  s.getItem (uid, pid)

def msgDeleteMiss : String := "Propriedade não encontrada ou não pertence ao usuário"

def msgDeleteOk : String := "Propriedade deletada com sucesso"

/-- `delete_property_data`: the conditional delete.  The condition
`attribute_exists(userId) AND attribute_exists(propertyId)` holds exactly
when an item is stored under the key (key attributes always exist on a
stored item), so a missing key raises `ConditionalCheckFailedException`,
reported with the distinct miss message; other `ClientError`s
(infrastructure faults, reported with a different message) are out of
scope. -/
def delete_property_data (s : Store) (uid pid : String) : (Bool × String) × Store :=
  match s.getItem (uid, pid) with
  | none => ((false, msgDeleteMiss), s)
  | some _ => ((true, msgDeleteOk), s.eraseItem (uid, pid))

/-- The per-field value conversion of `update_property_data`: Decimal for
the numeric fields, decimal pairs for coordinates, raw otherwise; a
conversion failure raises out of the function (its `except` clause catches
only `ClientError`). -/
def updFieldVal (f : String) (v : Val) : Option Val :=
  if f = "area" || f = "perimeter" then (toDec v).map Val.dec
  else if f = "coordinates" then convert_coordinates_to_decimal v
  else some v

/-- The dynamic `SET` list: one assignment per updatable field present in
the payload, in the fixed `updatable_fields` order. -/
def buildSets (upd : Val) : List String → Option (List (String × Val))
  | [] => some []
  | f :: rest =>
    match pyInStr f upd with
    | none => none
    | some present =>
      if present then
        match Val.subscr upd f with
        | none => none
        | some v =>
          match updFieldVal f v with
          | none => none
          | some cv =>
            match buildSets upd rest with
            | none => none
            | some tail => some ((f, cv) :: tail)
      else buildSets upd rest

/-- Apply a `SET` list to an item, left to right. -/
def Item.applySets (it : Item) : List (String × Val) → Item
  | [] => it
  | (k, v) :: rest => Item.applySets (it.setA k v) rest

/-- `update_property_data`: build the `SET` expression over the present
fields, always appending `updatedAt = now`, and execute `update_item` with
`ALL_NEW` (DynamoDB upserts a fresh item carrying the key attributes when
the key is absent — the handler checks existence first).  The first
component is the formatted `ALL_NEW` record, `none` when an exception
escapes; note a formatting exception happens after the write, so the
returned store is mutated in that case. -/
def update_property_data (now : String) (s : Store) (uid pid : String)
    (upd : Val) : Option Item × Store :=
  match buildSets upd updatable_fields with
  | none => (none, s)
  | some sets =>
    let sets2 := sets ++ [("updatedAt", Val.str now)]
    let base := match s.getItem (uid, pid) with
                | some prev => prev
                | none => [("userId", Val.str uid), ("propertyId", Val.str pid)]
    let newIt := Item.applySets base sets2
    let s2 := s.putItem (uid, pid) newIt
    match format_property_for_response newIt with
    | none => (none, s2)
    | some fp => (some fp, s2)

/-- Key attributes of an item to be batch-inserted. -/
def itemKey (it : Item) : DbKey :=
  (match flook it ("userId") with | some (.str u) => u | _ => "",
   match flook it ("propertyId") with | some (.str p) => p | _ => "")

/-- `batch_insert_properties` via `batch_writer`: a sequence of puts.
Infrastructure failures (and the `insert_properties_individually`
fallback, which retries the same puts one by one) are out of scope: the
batch succeeds. -/
def putAll (s : Store) : List Item → Store
  | [] => s
  | it :: rest => putAll (s.putItem (itemKey it) it) rest

/-- The DynamoDB item literal of `create_property` (the variant carrying
`analysisStatus`); a failed conversion raises (`none`). -/
def buildCreateItem (now uid pid : String) (body : Val) : Option Item :=
  match Val.subscr body ("name"), Val.dget body ("type") (.str "fazenda"),
        Val.dget body ("description") (.str "") with
  | some nameV, some typeV, some descV =>
    match (Val.subscr body ("area")).bind toDec,
          (Val.subscr body ("perimeter")).bind toDec,
          (Val.subscr body ("coordinates")).bind convert_coordinates_to_decimal with
    | some areaD, some perimD, some coordsD =>
      some [
    ("userId", .str uid),
    ("propertyId", .str pid),
    ("name", nameV),
    ("type", typeV),
    ("description", descV),
    ("area", .dec areaD),
    ("perimeter", .dec perimD),
        ("coordinates", coordsD),
        ("analysisStatus", .str "pending"),
        ("createdAt", .str now),
        ("updatedAt", .str now)]
    | _, _, _ => none
  | _, _, _ => none

/-- The item literal of the import loop (no `analysisStatus`). -/
def buildImportItem (now uid pid : String) (body : Val) : Option Item :=
  match Val.subscr body ("name"), Val.dget body ("type") (.str "fazenda"),
        Val.dget body ("description") (.str "") with
  | some nameV, some typeV, some descV =>
    match (Val.subscr body ("area")).bind toDec,
          (Val.subscr body ("perimeter")).bind toDec,
          (Val.subscr body ("coordinates")).bind convert_coordinates_to_decimal with
    | some areaD, some perimD, some coordsD =>
      some [
    ("userId", .str uid),
    ("propertyId", .str pid),
    ("name", nameV),
    ("type", typeV),
    ("description", descV),
    ("area", .dec areaD),
    ("perimeter", .dec perimD),
        ("coordinates", coordsD),
        ("createdAt", .str now),
        ("updatedAt", .str now)]
    | _, _, _ => none
  | _, _, _ => none

/-- Placeholder for the `str(e)` text of a caught per-item exception (its
exact wording is produced by the Python runtime). -/
def excStr : String := "<exception>"

/-- `create_property`: parse body, validate, build and put the item, then
format the 201 response; the creation event publication is best-effort
(logged and swallowed, no observable effect) and every uncaught exception
becomes the generic 500.  A formatting exception happens after the put. -/
def create_property (env : Env) (s : Store) (e : Event) (uid : String) :
    Response × Store :=
  match parseBody e with
  | .decodeErr =>
    (create_response 400 (errBody ("JSON inválido no body da requisição")), s)
  | .raised => (internalErr, s)
  | .ok body =>
    match validate_property_data body with
    | .exn => (internalErr, s)
    | .invalid m => (create_response 400 (errBody m), s)
    | .valid =>
      let pid := env.ids 0
      match buildCreateItem env.now uid pid body with
      | none => (internalErr, s)
      | some item =>
        let s2 := s.putItem (uid, pid) item
        match format_property_for_response item with
        | none => (internalErr, s2)
        | some fp =>
          (create_response 201 (.obj [
            ("message", .str "Propriedade criada com sucesso"),
            ("property", .obj fp)]), s2)

/-- The import loop: per-item validation, id draw on validation success,
item construction with the per-item `except` collecting a failure record;
building a failure record for a non-dict item itself raises
(`property_data.get` inside the handler), escaping to the outer catch-all
(`none`).  Accumulates (success records, failure records, items to
insert). -/
def importLoop (env : Env) (uid : String) (pds : List Val) (idx nDraw : ℕ)
    (succ fails : List Val) (items : List Item) :
    Option (List Val × List Val × List Item) :=
  match pds with
  | [] => some (succ, fails, items)
  | pd :: rest =>
    match validate_property_data pd with
    | .invalid m =>
      match Val.dget pd ("name") (.str "Unnamed") with
      | none => none
      | some nm =>
        importLoop env uid rest (idx + 1) nDraw succ
          (fails ++ [Val.obj [
            ("index", .num (.fin ((idx + 1 : ℕ) : ℚ))),
            ("name", nm),
            ("error", .str m)]]) items
    | .exn =>
      match Val.dget pd ("name") (.str "Unnamed") with
      | none => none
      | some nm =>
        importLoop env uid rest (idx + 1) nDraw succ
          (fails ++ [Val.obj [
            ("index", .num (.fin ((idx + 1 : ℕ) : ℚ))),
            ("name", nm),
            ("error", .str excStr)]]) items
    | .valid =>
      let pid := env.ids nDraw
      match buildImportItem env.now uid pid pd with
      | none =>
        match Val.dget pd ("name") (.str "Unnamed") with
        | none => none
        | some nm =>
          importLoop env uid rest (idx + 1) (nDraw + 1) succ
            (fails ++ [Val.obj [
              ("index", .num (.fin ((idx + 1 : ℕ) : ℚ))),
              ("name", nm),
              ("error", .str excStr)]]) items
      | some item =>
        match Val.subscr pd ("name") with
        | none => none
        | some nm =>
          importLoop env uid rest (idx + 1) (nDraw + 1)
            (succ ++ [Val.obj [
              ("index", .num (.fin ((idx + 1 : ℕ) : ℚ))),
              ("name", nm),
              ("id", .str pid)]]) fails (items ++ [item])

def msgImportFail : String := "Erro na importação de propriedades"

/-- `import_properties`: body parse, the falsy gate on
`body.get("properties", [])`, `len(...) > 100` (working on lists, strings
and dicts alike; `len` raising on numbers and booleans lands in the
catch-all 500), the per-item loop, the batch insert and the summary
envelope (failure records truncated to the first 10).  Iterating a truthy
string or dict of at most 100 elements yields non-dict items whose
failure-record `.get` raises inside the per-item handler, so those batches
end in the catch-all 500 as well. -/
def import_properties (env : Env) (s : Store) (e : Event) (uid : String) :
    Response × Store :=
  match parseBody e with
  | .decodeErr => (create_response 400 (errBody ("JSON inválido")), s)
  | .raised => (create_response 500 (errBody msgImportFail), s)
  | .ok body =>
    match Val.dget body ("properties") (.arr []) with
    | none => (create_response 500 (errBody msgImportFail), s)
    | some pv =>
      if !(truthy pv) then
        (create_response 400 (errBody ("Lista de propriedades é obrigatória")), s)
      else
        match pyLen pv with
        | none => (create_response 500 (errBody msgImportFail), s)
        | some n =>
          if 100 < n then
            (create_response 400 (errBody ("Máximo 100 propriedades por importação")), s)
          else
            match pv with
            | .arr items =>
              match importLoop env uid items 0 0 [] [] [] with
              | none => (create_response 500 (errBody msgImportFail), s)
              | some (succ, fails, toIns) =>
                let s2 := putAll s toIns
                (create_response 200 (.obj [
                  ("message", .str "Importação processada"),
                  ("imported", .num (.fin (toIns.length : ℚ))),
                  ("failed", .num (.fin (fails.length : ℚ))),
                  ("total", .num (.fin (items.length : ℚ))),
                  ("successful_imports", .arr succ),
                  ("failed_imports", .arr (fails.take 10))]), s2)
            | _ => (create_response 500 (errBody msgImportFail), s)

/-- `update_property`: path id, body parse, the empty-body gate, the
existence/ownership pre-check, update validation, then the store update. -/
def update_property (env : Env) (s : Store) (e : Event) (uid : String) :
    Response × Store :=
  match pathParamId e with
  | none => (create_response 400 (errBody ("ID da propriedade é obrigatório")), s)
  | some pid =>
    match parseBody e with
    | .decodeErr =>
      (create_response 400 (errBody ("JSON inválido no body da requisição")), s)
    | .raised => (internalErr, s)
    | .ok body =>
      if !(truthy body) then
        (create_response 400 (errBody ("Body da requisição não pode estar vazio")), s)
      else
        match get_existing_property s uid pid with
        | none => (create_response 404 (errBody ("Propriedade não encontrada")), s)
        | some _ =>
          match validate_update_data body with
          | .exn => (internalErr, s)
          | .invalid m => (create_response 400 (errBody m), s)
          | .valid =>
            match update_property_data env.now s uid pid body with
            | (none, s2) => (internalErr, s2)
            | (some fp, s2) =>
              (create_response 200 (.obj [
                ("message", .str "Propriedade atualizada com sucesso"),
                ("property", .obj fp)]), s2)

/-- `delete_property`: path id, the existence/ownership pre-check (404), the
conditional delete; an adapter failure — including a conditioned-delete
miss, reachable only under concurrent interference — is mapped to 500 by
the final branch. -/
def delete_property (_env : Env) (s : Store) (e : Event) (uid : String) :
    Response × Store :=
  match pathParamId e with
  | none => (create_response 400 (errBody ("ID da propriedade é obrigatório")), s)
  | some pid =>
    match get_existing_property s uid pid with
    | none => (create_response 404 (errBody ("Propriedade não encontrada")), s)
    | some existing =>
      match delete_property_data s uid pid with
      | ((true, _), s2) =>
        (create_response 200 (.obj [
          ("message", .str "Propriedade deletada com sucesso"),
          ("deletedProperty", .obj [
            ("id", .str pid),
            ("name", (flook existing ("name")).getD .null)])]), s2)
      | ((false, m), s2) => (create_response 500 (errBody m), s2)

/-- Resume a scan after the item whose propertyId equals the token. -/
def dropThrough (l : List (DbKey × Item)) (tk : String) : List (DbKey × Item) :=
  match l with
  | [] => []
  | kv :: rest => if kv.1.2 = tk then rest else dropThrough rest tk

/-- `table.query` for one owner: the owner's items in stored order
(the `ScanIndexForward=False` descending-sort-key ordering is not modelled —
no verified property concerns ordering), honouring the limit, returning a
continuation token (modelled as the last returned propertyId) when the
scan stopped with items remaining.  Malformed tokens are ignored by the
source with a warning; token decoding is not modelled further. -/
def queryUser (s : Store) (uid : String) (lim : ℕ) (startAfter : Option String) :
    List (DbKey × Item) × Option String :=
  let mine := s.filter (fun kv => kv.1.1 = uid)
  let after := match startAfter with
               | none => mine
               | some tk => dropThrough mine tk
  let page := after.take lim
  let nk := if after.length ≤ lim then none
            else match page.getLast? with
                 | some kv => some kv.1.2
                 | none => none
  (page, nk)

/-- Format every fetched item; a raise escapes to the enclosing `except`. -/
def traverseFormat : List Item → Option (List Item)
  | [] => some []
  | p :: rest =>
    match format_property_for_response p, traverseFormat rest with
    | some fp, some tail => some (fp :: tail)
    | _, _ => none

/-- `get_user_properties`: query, post-retrieval type filter (a filtered
page may be short), response formatting; `none` is the caught exception
path reporting failure to the handler. -/
def get_user_properties (s : Store) (uid : String) (ptype : Option String)
    (lim : ℕ) (lastKey : Option String) : Option (List Item × Option String) :=
  let qr := queryUser s uid lim lastKey
  let props := qr.1.map (fun kv => kv.2)
  let filtered := match ptype with
                  | none => props
                  | some t =>
                    if t = "" then props
                    else props.filter (fun p => pyEq ((flook p ("type")).getD .null) (.str t))
  match traverseFormat filtered with
  | none => none
  | some fps => some (fps, qr.2)

/-- `int(s)` on the `limit` query parameter: optional sign and digits;
`none` models the `ValueError` escaping to the handler's catch-all. -/
def parseIntStr (s : String) : Option ℤ :=
  let sp := stripSign (trimCharList s.data)
  if !sp.2.isEmpty && allDigits sp.2 then
    some (if sp.1 then -((digitsToNat sp.2 : ℕ) : ℤ) else ((digitsToNat sp.2 : ℕ) : ℤ))
  else none

def msgQueryFail : String := "Erro ao buscar propriedades: <exception>"

/-- `get_properties`: query parameters (limit outside [1,100] silently reset
to 50), the owner query, and the 200 envelope with page-local statistics
appended only when the page is nonempty. -/
def get_properties (_env : Env) (s : Store) (e : Event) (uid : String) :
    Response × Store :=
  let qp := e.queryStringParameters.getD []
  let ptype := slook qp ("type")
  let limRaw : Option ℤ := match slook qp ("limit") with
                           | none => some 50
                           | some ls => parseIntStr ls
  match limRaw with
  | none => (internalErr, s)
  | some l0 =>
    let lim : ℤ := if l0 < 1 || 100 < l0 then 50 else l0
    let lastKey := slook qp ("lastKey")
    match get_user_properties s uid ptype lim.toNat lastKey with
    | none => (create_response 500 (errBody msgQueryFail), s)
    | some (props, nk) =>
      let base : List (String × Val) := [
        ("properties", Val.arr (props.map Val.obj)),
        ("count", Val.num (.fin (props.length : ℚ))),
        ("lastKey", match nk with | some t => Val.str t | none => Val.null)]
      let wholeBody := if props.isEmpty then base
                       else base ++ [("statistics", Val.obj (calculate_stats props))]
      (create_response 200 (.obj wholeBody), s)

/-- `get_analysis_data`: the separate analysis table keyed by propertyId
alone; absent configuration and absent rows yield the documented status
objects (the Decimal→string JSON round trip of a found row is modelled as
identity). -/
def get_analysis_data (env : Env) (pid : String) : Val :=
  match env.analysisTable with
  | none => .obj [
      ("status", .str "not_configured"),
      ("message", .str "Sistema de análise não configurado")]
  | some tbl =>
    match flook tbl pid with
    | some item => item
    | none => .obj [
        ("status", .str "pending"),
        ("message", .str "Análise em processamento")]

/-- `get_property_analysis`: path id, ownership pre-check, then the
synchronous poll of the analysis table. -/
def get_property_analysis (env : Env) (s : Store) (e : Event) (uid : String) :
    Response × Store :=
  match pathParamId e with
  | none => (create_response 400 (errBody ("ID da propriedade é obrigatório")), s)
  | some pid =>
    match get_existing_property s uid pid with
    | none => (create_response 404 (errBody ("Propriedade não encontrada")), s)
    | some _ =>
      (create_response 200 (.obj [
        ("propertyId", .str pid),
        ("analysis", get_analysis_data env pid)]), s)

/-- The report fetch loop: each id fetched independently, missing or
foreign ids skipped; non-string ids are skipped too (the store client
rejects them with a `ClientError`, which `get_existing_property` converts
to `None`); a formatting exception escapes to the 500 catch-all. -/
def collectProps (s : Store) (uid : String) : List Val → Option (List Item)
  | [] => some []
  | v :: rest =>
    match v with
    | .str pid =>
      match get_existing_property s uid pid with
      | some it =>
        match format_property_for_response it, collectProps s uid rest with
        | some fp, some tail => some (fp :: tail)
        | _, _ => none
      | none => collectProps s uid rest
    | _ => collectProps s uid rest

/-- Python iteration over the `propertyIds` value: lists yield elements,
strings yield characters, dicts yield their keys; `none` models the
`TypeError` on other receivers. -/
def iterVals : Val → Option (List Val)
  | .arr l => some l
  | .str s => some (s.data.map (fun c => Val.str (String.mk [c])))
  | .obj l => some (l.map (fun p => Val.str p.1))
  | _ => none

def msgPdfFail : String := "Erro ao gerar relatório PDF"

/-- `generate_pdf_report`: body parse, the falsy gate on `propertyIds`,
independent fetches (skipping misses), 404 on an empty result set, then
the external PDF renderer reduced to its observable reply
(`env.pdfOk`/`env.pdfData`/`env.pdfName`). -/
def generate_pdf_report (env : Env) (s : Store) (e : Event) (uid : String) :
    Response × Store :=
  match parseBody e with
  | .decodeErr => (create_response 400 (errBody ("JSON inválido")), s)
  | .raised => (create_response 500 (errBody msgPdfFail), s)
  | .ok body =>
    match Val.dget body ("propertyIds") (.arr []) with
    | none => (create_response 500 (errBody msgPdfFail), s)
    | some pv =>
      if !(truthy pv) then
        (create_response 400 (errBody ("Lista de propriedades é obrigatória")), s)
      else
        match iterVals pv with
        | none => (create_response 500 (errBody msgPdfFail), s)
        | some pids =>
          match collectProps s uid pids with
          | none => (create_response 500 (errBody msgPdfFail), s)
          | some props =>
            if props.isEmpty then
              (create_response 404 (errBody ("Nenhuma propriedade encontrada")), s)
            else if env.pdfOk then
              (create_response 200 (.obj [
                ("message", .str "Relatório gerado com sucesso"),
                ("pdf", .str env.pdfData),
                ("filename", .str env.pdfName),
                ("properties_count", .num (.fin (props.length : ℚ)))]), s)
            else
              (create_response 500 (errBody ("Erro ao criar PDF: <exception>")), s)

/-- Substring containment, as the router's `in resource` tests. -/
def containsStr (needle hay : String) : Bool :=
  substrAux needle.data hay.data

/-- `lambda_handler`: identity extraction (falsy user id → 401 before any
other logic), then the method/resource router in source order; OPTIONS is
matched after all method-specific branches (whose method guards it always
fails), and unmatched requests echo method and resource in a 404.  The
router's own catch-all is unreachable here: every handler converts its
exceptions internally. -/
def lambda_handler (env : Env) (s : Store) (e : Event) : Response × Store :=
  match extract_user_id e with
  | none =>
    (create_response 401 (errBody ("Token inválido ou usuário não identificado")), s)
  | some uid =>
    if e.httpMethod == "GET" && containsStr ("/properties/\x7bid\x7d/analysis") e.resource then
      get_property_analysis env s e uid
    else if e.httpMethod == "POST" && containsStr ("/properties/report") e.resource then
      generate_pdf_report env s e uid
    else if e.httpMethod == "POST" && containsStr ("/properties/import") e.resource then
      import_properties env s e uid
    else if e.httpMethod == "POST" && containsStr ("/properties") e.resource
        && !(containsStr ("\x7bid\x7d") e.resource) then
      create_property env s e uid
    else if e.httpMethod == "GET" && containsStr ("/properties") e.resource
        && !(containsStr ("\x7bid\x7d") e.resource) then
      get_properties env s e uid
    else if e.httpMethod == "PUT" && containsStr ("/properties") e.resource
        && containsStr ("\x7bid\x7d") e.resource then
      update_property env s e uid
    else if e.httpMethod == "DELETE" && containsStr ("/properties") e.resource
        && containsStr ("\x7bid\x7d") e.resource then
      delete_property env s e uid
    else if e.httpMethod == "OPTIONS" then
      (create_response 200 (.obj [("message", .str "CORS preflight")]), s)
    else
      (create_response 404 (errBody ("Endpoint não encontrado: " ++ e.httpMethod ++ " " ++ e.resource)), s)

/-! ## Fixtures and supporting lemmas -/

/-- A concrete ambient context for closed instances. -/
def envD : Env := {
  now := "2026-01-01T00:00:00+00:00",
  ids := fun _ => "prop_0123456789ab",
  pdfOk := true,
  pdfData := "JVBERi0=",
  pdfName := "relatorio_propriedades_20260101_000000.pdf",
  analysisTable := none }

/-- An authorized request context. -/
def ctxU1 : ReqCtx := { claimsSub := some "user1", authSub := none, cognitoId := none }

theorem getItem_erase_self (s : Store) (k : DbKey) :
    Store.getItem (Store.eraseItem s k) k = none := by
  induction s with
  | nil => rfl
  | cons kv rest ih =>
    by_cases h : kv.1 = k
    · simp [Store.eraseItem, h, ih]
    · simp [Store.eraseItem, Store.getItem, h, ih]

theorem getItem_erase_ne (s : Store) (k k2 : DbKey) (h : k2 ≠ k) :
    Store.getItem (Store.eraseItem s k) k2 = Store.getItem s k2 := by
  have hne : ¬ k = k2 := fun hc => h hc.symm
  induction s with
  | nil => rfl
  | cons kv rest ih =>
    by_cases hk : kv.1 = k
    · have hkv : ¬ kv.1 = k2 := by rw [hk]; exact hne
      simp [Store.eraseItem, Store.getItem, hk, hkv, hne, ih]
    · by_cases hk2 : kv.1 = k2
      · simp [Store.eraseItem, Store.getItem, hk, hk2, h, ih]
      · simp [Store.eraseItem, Store.getItem, hk, hk2, ih]

theorem getItem_put_self (s : Store) (k : DbKey) (it : Item) :
    Store.getItem (Store.putItem s k it) k = some it := by
  induction s with
  | nil => simp [Store.putItem, Store.getItem]
  | cons kv rest ih =>
    by_cases h : kv.1 = k
    · simp [Store.putItem, Store.getItem, h]
    · simp [Store.putItem, Store.getItem, h, ih]

theorem getItem_put_ne (s : Store) (k k2 : DbKey) (it : Item) (h : k2 ≠ k) :
    Store.getItem (Store.putItem s k it) k2 = Store.getItem s k2 := by
  have hne : ¬ k = k2 := fun hc => h hc.symm
  induction s with
  | nil => simp [Store.putItem, Store.getItem, hne]
  | cons kv rest ih =>
    by_cases hk : kv.1 = k
    · have hkv : ¬ kv.1 = k2 := by rw [hk]; exact hne
      simp [Store.putItem, Store.getItem, hk, hne, hkv]
    · by_cases hk2 : kv.1 = k2
      · simp [Store.putItem, Store.getItem, hk, hk2, h]
      · simp [Store.putItem, Store.getItem, hk, hk2, ih]

/-! ## C1 — delete semantics -/

/-- C1: for every delete request on an `(owner_id, property_id)` pair —
within the sequential single-invocation semantics of the embedding —
(i) when no record is stored under the pair (missing id or foreign owner,
since all keys are owner-scoped) the handler answers 404 and the store is
untouched; (ii) when a record is stored the handler answers 200, the pair
is removed so a subsequent get returns absent, and no other key is
affected; (iii) the store adapter reports a conditioned-delete miss as its
distinct not-found failure (`msgDeleteMiss`), separately from
infrastructure errors, and succeeds exactly on stored pairs, erasing the
pair. -/
theorem delete_semantics :
    (∀ (env : Env) (s : Store) (e : Event) (uid pid : String),
      pathParamId e = some pid →
      Store.getItem s (uid, pid) = none →
      delete_property env s e uid =
        (create_response 404 (errBody ("Propriedade não encontrada")), s))
    ∧ (∀ (env : Env) (s : Store) (e : Event) (uid pid : String) (it : Item),
        pathParamId e = some pid →
        Store.getItem s (uid, pid) = some it →
        delete_property env s e uid =
          (create_response 200 (.obj [
            ("message", .str "Propriedade deletada com sucesso"),
            ("deletedProperty", .obj [
              ("id", .str pid),
              ("name", (flook it ("name")).getD .null)])]),
           Store.eraseItem s (uid, pid))
        ∧ Store.getItem (Store.eraseItem s (uid, pid)) (uid, pid) = none
        ∧ (∀ k : DbKey, k ≠ (uid, pid) →
            Store.getItem (Store.eraseItem s (uid, pid)) k = Store.getItem s k))
    ∧ (∀ (s : Store) (uid pid : String),
        Store.getItem s (uid, pid) = none →
        delete_property_data s uid pid = ((false, msgDeleteMiss), s))
    ∧ (∀ (s : Store) (uid pid : String) (it : Item),
        Store.getItem s (uid, pid) = some it →
        delete_property_data s uid pid =
          ((true, msgDeleteOk), Store.eraseItem s (uid, pid))) := by
  refine ⟨?_, ?_, ?_, ?_⟩
  · intro env s e uid pid hp hmiss
    simp [delete_property, hp, get_existing_property, hmiss]
  · intro env s e uid pid it hp hhit
    refine ⟨?_, getItem_erase_self s (uid, pid),
      fun k hk => getItem_erase_ne s (uid, pid) k hk⟩
    simp [delete_property, hp, get_existing_property, hhit, delete_property_data]
  · intro s uid pid hmiss
    simp [delete_property_data, hmiss]
  · intro s uid pid it hhit
    simp [delete_property_data, hhit]

/-- A one-item store for the C1 witness. -/
def itW : Item := [
  ("userId", .str "user1"), ("propertyId", .str "prop_0123456789ab"),
  ("name", .str "Fazenda Sol")]

def storeW : Store := [(("user1", "prop_0123456789ab"), itW)]

def evDelW : Event := {
  httpMethod := "DELETE", path := "/properties/prop_0123456789ab",
  resource := "/properties/\x7bid\x7d",
  pathParameters := some [("id", "prop_0123456789ab")],
  queryStringParameters := none, body := none, requestContext := ctxU1 }

/-- Witness for C1 at concrete inputs: deleting a stored pair answers 200
and empties the store; deleting from the empty store answers 404; the
adapter reports the miss with its distinct message. -/
theorem delete_semantics_witness :
    delete_property envD storeW evDelW ("user1") =
      (create_response 200 (.obj [
        ("message", .str "Propriedade deletada com sucesso"),
        ("deletedProperty", .obj [
          ("id", .str "prop_0123456789ab"),
          ("name", .str "Fazenda Sol")])]), [])
    ∧ delete_property envD [] evDelW ("user1") =
        (create_response 404 (errBody ("Propriedade não encontrada")), [])
    ∧ delete_property_data [] ("user1") ("prop_0123456789ab") =
        ((false, msgDeleteMiss), []) := by
  refine ⟨?_, ?_, ?_⟩
  · have h := (delete_semantics.2.1 envD storeW evDelW ("user1")
      ("prop_0123456789ab") itW (by rfl) (by rfl)).1
    simpa using h
  · exact delete_semantics.1 envD [] evDelW ("user1") ("prop_0123456789ab")
      (by rfl) (by rfl)
  · exact delete_semantics.2.2.1 [] ("user1") ("prop_0123456789ab") (by rfl)

/-! ## C4 — geometry validation -/

theorem pyEq_self_of_inBoundsFloat (a : Val) (f : PyDec) (lo hi : ℚ)
    (hf : toFloat a = some f) (hlo : f.geF lo = true) (hhi : f.leF hi = true) :
    pyEq a a = true := by
  cases a with
  | null => simp [toFloat] at hf
  | bool b => simp [pyEq]
  | num x =>
    cases x with
    | fin q => simp [pyEq, PyDec.numEq]
    | inf =>
      simp only [toFloat, Option.some.injEq] at hf
      rw [← hf] at hhi
      simp [PyDec.leF] at hhi
    | ninf =>
      simp only [toFloat, Option.some.injEq] at hf
      rw [← hf] at hlo
      simp [PyDec.geF] at hlo
    | nan =>
      simp only [toFloat, Option.some.injEq] at hf
      rw [← hf] at hlo
      simp [PyDec.geF] at hlo
  | dec d =>
    cases d with
    | fin q => simp [pyEq, PyDec.numEq]
    | inf =>
      simp only [toFloat, Option.some.injEq] at hf
      rw [← hf] at hhi
      simp [PyDec.leF] at hhi
    | ninf =>
      simp only [toFloat, Option.some.injEq] at hf
      rw [← hf] at hlo
      simp [PyDec.geF] at hlo
    | nan =>
      simp only [toFloat, Option.some.injEq] at hf
      rw [← hf] at hlo
      simp [PyDec.geF] at hlo
  | str s => simp [pyEq]
  | arr l => simp [toFloat] at hf
  | obj l => simp [toFloat] at hf

/-- A valid point compares `==`-equal to itself (its components carry no
NaN, which is the only source of irreflexivity). -/
theorem validPoint_pyEq_self (c : Val) (h : validPoint c = true) :
    pyEq c c = true := by
  cases c with
  | arr l =>
    match l with
    | [] => simp [validPoint] at h
    | [_] => simp [validPoint] at h
    | a :: b :: _ :: _ => simp [validPoint] at h
    | [a, b] =>
      rw [validPoint] at h
      cases ha : toFloat a with
      | none => rw [ha] at h; cases hb : toFloat b <;> rw [hb] at h <;> simp at h
      | some lon =>
        cases hb : toFloat b with
        | none => rw [ha, hb] at h; simp at h
        | some lat =>
          rw [ha, hb] at h
          simp only [Bool.and_eq_true] at h
          obtain ⟨⟨⟨h1, h2⟩, h3⟩, h4⟩ := h
          have ea := pyEq_self_of_inBoundsFloat a lon (-180) 180 ha h1 h2
          have eb := pyEq_self_of_inBoundsFloat b lat (-90) 90 hb h3 h4
          simp [pyEq, pyEqList, ea, eb]
  | null => simp [validPoint] at h
  | bool b => simp [validPoint] at h
  | num x => simp [validPoint] at h
  | dec d => simp [validPoint] at h
  | str s => simp [validPoint] at h
  | obj l => simp [validPoint] at h

theorem validate_coordinates_iff (v : Val) :
    validate_coordinates v = true ↔
      ∃ cs : List Val, v = Val.arr cs ∧ 4 ≤ cs.length ∧
        (∀ c ∈ cs, validPoint c = true) ∧
        ∃ a b, cs.head? = some a ∧ cs.getLast? = some b ∧ pyEq a b = true := by
    constructor
    · intro h
      cases v with
      | arr cs =>
        rw [validate_coordinates] at h
        by_cases hlen : cs.length < 4
        · rw [if_pos hlen] at h; exact absurd h (by simp)
        · rw [if_neg hlen] at h
          by_cases hall : cs.all validPoint
          · rw [hall] at h
            simp only [Bool.not_true, Bool.false_eq_true, if_false] at h
            cases hh : cs.head? with
            | none => rw [hh] at h; cases cs.getLast? <;> simp at h
            | some a =>
              cases hl : cs.getLast? with
              | none => rw [hh, hl] at h; simp at h
              | some b =>
                rw [hh, hl] at h
                exact ⟨cs, rfl, Nat.le_of_not_lt hlen,
                  List.all_eq_true.mp hall, a, b, hh, hl, h⟩
          · rw [Bool.not_eq_true] at hall
            rw [hall] at h
            simp at h
      | null => simp [validate_coordinates] at h
      | bool b => simp [validate_coordinates] at h
      | num x => simp [validate_coordinates] at h
      | dec d => simp [validate_coordinates] at h
      | str s => simp [validate_coordinates] at h
      | obj l => simp [validate_coordinates] at h
    · rintro ⟨cs, rfl, hlen, hall, a, b, hh, hl, heq⟩
      rw [validate_coordinates, if_neg (by omega), List.all_eq_true.mpr hall]
      simp only [Bool.not_true, Bool.false_eq_true, if_false]
      rw [hh, hl]
      exact heq

/-- C4: `validate_coordinates` accepts exactly the lists of at least four
valid points (2-element pairs parseable as floats with longitude in
[-180,180] and latitude in [-90,90]) whose first point equals the last
point component-wise; in particular every 4-point sequence whose first
point differs from its last fails, and appending the first point of an
open ring of three valid points as a closing point passes. -/
theorem validate_coordinates_spec :
    (∀ v : Val, validate_coordinates v = true ↔
      ∃ cs : List Val, v = Val.arr cs ∧ 4 ≤ cs.length ∧
        (∀ c ∈ cs, validPoint c = true) ∧
        ∃ a b, cs.head? = some a ∧ cs.getLast? = some b ∧ pyEq a b = true)
    ∧ (∀ cs : List Val, cs.length = 4 →
        (∀ a b, cs.head? = some a → cs.getLast? = some b → pyEq a b = false) →
        validate_coordinates (.arr cs) = false)
    ∧ (∀ p q r : Val, validPoint p = true → validPoint q = true →
        validPoint r = true →
        validate_coordinates (.arr [p, q, r, p]) = true) := by
  refine ⟨validate_coordinates_iff, ?_, ?_⟩
  · intro cs hlen hne
    rw [validate_coordinates, if_neg (by omega)]
    by_cases hall : cs.all validPoint
    · rw [hall]
      simp only [Bool.not_true, Bool.false_eq_true, if_false]
      cases hh : cs.head? with
      | none => cases cs.getLast? <;> rfl
      | some a =>
        cases hl : cs.getLast? with
        | none => rfl
        | some b => exact hne a b hh hl
    · rw [Bool.not_eq_true] at hall
      rw [hall]
      simp
  · intro p q r hp hq hr
    rw [validate_coordinates]
    have hall : List.all [p, q, r, p] validPoint = true := by
      simp only [List.all_eq_true, List.mem_cons, List.not_mem_nil, or_false]
      rintro c (rfl | rfl | rfl | rfl) <;> assumption
    rw [if_neg (by simp), hall]
    simp only [Bool.not_true, Bool.false_eq_true, if_false]
    have hh : List.head? [p, q, r, p] = some p := rfl
    have hl : List.getLast? [p, q, r, p] = some p := rfl
    rw [hh, hl]
    exact validPoint_pyEq_self p hp

/-- Witness for C4 at concrete inputs: a closed square passes (via the
open-ring clause), and the same square with a different last vertex
fails. -/
theorem validate_coordinates_spec_witness :
    validate_coordinates (.arr [
      .arr [.num (.fin 0), .num (.fin 0)],
      .arr [.num (.fin 1), .num (.fin 0)],
      .arr [.num (.fin 1), .num (.fin 1)],
      .arr [.num (.fin 0), .num (.fin 0)]]) = true
    ∧ validate_coordinates (.arr [
        .arr [.num (.fin 0), .num (.fin 0)],
        .arr [.num (.fin 1), .num (.fin 0)],
        .arr [.num (.fin 1), .num (.fin 1)],
        .arr [.num (.fin 0), .num (.fin 1)]]) = false := by
  constructor
  · exact validate_coordinates_spec.2.2
      (.arr [.num (.fin 0), .num (.fin 0)])
      (.arr [.num (.fin 1), .num (.fin 0)])
      (.arr [.num (.fin 1), .num (.fin 1)])
      (by decide) (by decide) (by decide)
  · refine validate_coordinates_spec.2.1 _ (by rfl) ?_
    intro a b ha hb
    have ha2 := Option.some.inj ha
    have hb2 := Option.some.inj hb
    rw [← ha2, ← hb2]
    decide

/-! ## C3 — the area rule -/

theorem checkAreaVal_valid_iff (v : Val) :
    checkAreaVal v = .valid ↔
      ∃ q : ℚ, toDec v = some (.fin q) ∧ 0 < q ∧ q ≤ 1000000 := by
  unfold checkAreaVal
  cases h : toDec v with
  | none => simp
  | some d =>
    cases d with
    | fin q =>
      simp only [PyDec.decLe, PyDec.decGt]
      by_cases h1 : q ≤ 0
      · rw [decide_eq_true h1]
        simp only [Option.some.injEq, PyDec.fin.injEq]
        constructor
        · intro hc; cases hc
        · rintro ⟨q2, rfl, hpos, _⟩; exact absurd h1 (not_le.mpr hpos)
      · rw [decide_eq_false h1]
        by_cases h2 : (1000000 : ℚ) < q
        · rw [decide_eq_true h2]
          simp only [Option.some.injEq, PyDec.fin.injEq]
          constructor
          · intro hc; cases hc
          · rintro ⟨q2, rfl, _, hle⟩; exact absurd h2 (not_lt.mpr hle)
        · rw [decide_eq_false h2]
          constructor
          · intro _
            exact ⟨q, rfl, lt_of_not_le h1, le_of_not_lt h2⟩
          · intro _; rfl
    | inf =>
      simp only [PyDec.decLe, PyDec.decGt]
      constructor
      · intro hc; cases hc
      · rintro ⟨q2, hq2, _, _⟩; cases hq2
    | ninf =>
      simp only [PyDec.decLe, PyDec.decGt]
      constructor
      · intro hc; cases hc
      · rintro ⟨q2, hq2, _, _⟩; cases hq2
    | nan =>
      simp only [PyDec.decLe, PyDec.decGt]
      constructor
      · intro hc; cases hc
      · rintro ⟨q2, hq2, _, _⟩; cases hq2

theorem checkAreaVal_none (v : Val) (h : toDec v = none) :
    checkAreaVal v = .invalid msgAreaNum := by
  unfold checkAreaVal; rw [h]

theorem checkAreaVal_nonpos (v : Val) (q : ℚ)
    (h : toDec v = some (.fin q)) (hq : q ≤ 0) :
    checkAreaVal v = .invalid msgAreaPos := by
  unfold checkAreaVal
  rw [h]
  simp only [PyDec.decLe, decide_eq_true hq]

theorem checkAreaVal_large (v : Val) (q : ℚ)
    (h : toDec v = some (.fin q)) (hq : (1000000 : ℚ) < q) :
    checkAreaVal v = .invalid msgAreaMax := by
  unfold checkAreaVal
  rw [h]
  have h1 : ¬ q ≤ 0 := by linarith
  simp only [PyDec.decLe, PyDec.decGt, decide_eq_false h1, decide_eq_true hq]

/-- C3: the area rule, shared by creation and update validation: the value
is accepted iff `Decimal(str(v))` parses to a finite exact decimal in the
range (0, 1000000]; an unparseable value (and a NaN, whose ordered
comparison raises into the same except clause) draws the invalid-number
message; a finite parse at most 0 draws the positive-bound message and one
above 1000000 the upper-bound message; embedded in `validate_update_data`
the block's verdict is the payload's verdict; and a creation payload
accepted by `validate_property_data` always passed this same block. -/
theorem area_rule_spec (v : Val) :
    (checkAreaVal v = .valid ↔
      ∃ q : ℚ, toDec v = some (.fin q) ∧ 0 < q ∧ q ≤ 1000000)
    ∧ (toDec v = none → checkAreaVal v = .invalid msgAreaNum)
    ∧ (∀ q : ℚ, toDec v = some (.fin q) → q ≤ 0 →
        checkAreaVal v = .invalid msgAreaPos)
    ∧ (∀ q : ℚ, toDec v = some (.fin q) → (1000000 : ℚ) < q →
        checkAreaVal v = .invalid msgAreaMax)
    ∧ validate_update_data (.obj [("area", v)]) =
        (match checkAreaVal v with
         | .valid => .valid
         | r => r)
    ∧ (∀ data : Val, validate_property_data data = .valid →
        checkArea data = .valid) := by
  refine ⟨checkAreaVal_valid_iff v, checkAreaVal_none v,
    fun q h hq => checkAreaVal_nonpos v q h hq,
    fun q h hq => checkAreaVal_large v q h hq, ?_, ?_⟩
  · cases hc : checkAreaVal v <;>
      simp [validate_update_data, anyFieldIn, pyInStr, checkUpdName,
        checkUpdArea, checkUpdPerimeter, checkUpdCoordinates, checkUpdType,
        checkUpdDescription, Val.subscr, flook, hc]
  · intro data hv
    rw [validate_property_data] at hv
    cases h1 : checkRequired data with
    | invalid m => rw [h1] at hv; exact VResult.noConfusion hv
    | exn => rw [h1] at hv; exact VResult.noConfusion hv
    | valid =>
      rw [h1] at hv
      cases h2 : checkName data with
      | invalid m => rw [h2] at hv; exact VResult.noConfusion hv
      | exn => rw [h2] at hv; exact VResult.noConfusion hv
      | valid =>
        rw [h2] at hv
        cases h3 : checkArea data with
        | valid => rfl
        | invalid m => rw [h3] at hv; exact VResult.noConfusion hv
        | exn => rw [h3] at hv; exact VResult.noConfusion hv

/-- Witness for C3 at concrete inputs: one accepted value and one of each
rejection class. -/
theorem area_rule_spec_witness :
    checkAreaVal (.num (.fin 120)) = .valid
    ∧ checkAreaVal (.str "abc") = .invalid msgAreaNum
    ∧ checkAreaVal (.num (.fin 0)) = .invalid msgAreaPos
    ∧ checkAreaVal (.num (.fin 2000000)) = .invalid msgAreaMax
    ∧ validate_update_data (.obj [("area", .num (.fin 0))]) =
        .invalid msgAreaPos := by
  refine ⟨?_, ?_, ?_, ?_, ?_⟩
  · exact (area_rule_spec (.num (.fin 120))).1.mpr
      ⟨120, rfl, by norm_num, by norm_num⟩
  · exact (area_rule_spec (.str "abc")).2.1 (by decide)
  · exact (area_rule_spec (.num (.fin 0))).2.2.1 0 rfl le_rfl
  · exact (area_rule_spec (.num (.fin 2000000))).2.2.2.1 2000000 rfl (by norm_num)
  · rw [(area_rule_spec (.num (.fin 0))).2.2.2.2.1,
      (area_rule_spec (.num (.fin 0))).2.2.1 0 rfl le_rfl]

/-! ## C7 — creation-check ordering -/

/-- The creation validator's blocks, in source order. -/
def createChecks : List (Val → VResult) :=
  [checkRequired, checkName, checkArea, checkPerimeter, checkCoordinates,
   checkType, checkDescription]

/-- Short-circuiting sequencing: the first non-`valid` outcome wins. -/
def runChecks : List (Val → VResult) → Val → VResult
  | [], _ => .valid
  | c :: rest, data =>
    match c data with
    | .valid => runChecks rest data
    | r => r

theorem runChecks_first_fail (cs : List (Val → VResult)) (data : Val) :
    ∀ (n : ℕ) (c : Val → VResult), cs.get? n = some c →
      (∀ m, m < n → ∀ c2, cs.get? m = some c2 → c2 data = .valid) →
      c data ≠ .valid → runChecks cs data = c data := by
  induction cs with
  | nil => intro n c hn _ _; simp at hn
  | cons c0 rest ih =>
    intro n c hn hprev hfail
    cases n with
    | zero =>
      simp only [List.get?] at hn
      injection hn with hc
      subst hc
      cases h0 : c0 data with
      | valid => exact absurd h0 hfail
      | invalid m => simp [runChecks, h0]
      | exn => simp [runChecks, h0]
    | succ n2 =>
      simp only [List.get?] at hn
      have h0 : c0 data = .valid := hprev 0 (Nat.succ_pos n2) c0 rfl
      have hrec := ih n2 c hn
        (fun m hm c2 hc2 => hprev (m + 1) (Nat.succ_lt_succ hm) c2 hc2) hfail
      simp [runChecks, h0, hrec]

/-- C7: `validate_property_data` is exactly the short-circuit run of its
seven blocks in the fixed order required-fields → name → area → perimeter
→ coordinates → type → description, so on any payload whose checks pass up
to a first failing check the returned error is the one tied to that check —
a single error, never an aggregate. -/
theorem validate_create_order :
    (∀ data : Val, validate_property_data data = runChecks createChecks data)
    ∧ (∀ (data : Val) (n : ℕ) (c : Val → VResult),
        createChecks.get? n = some c →
        (∀ m, m < n → ∀ c2, createChecks.get? m = some c2 → c2 data = .valid) →
        c data ≠ .valid →
        validate_property_data data = c data) := by
  have heq : ∀ data : Val,
      validate_property_data data = runChecks createChecks data := by
    intro data
    rw [validate_property_data]
    simp only [createChecks, runChecks]
    cases checkRequired data <;> try rfl
    cases checkName data <;> try rfl
    cases checkArea data <;> try rfl
    cases checkPerimeter data <;> try rfl
    cases checkCoordinates data <;> try rfl
    cases checkType data <;> try rfl
    cases checkDescription data <;> rfl
  exact ⟨heq, fun data n c hn hp hf =>
    (heq data).trans (runChecks_first_fail createChecks data n c hn hp hf)⟩

/-- A payload whose first failing check is the area block. -/
def badAreaBody : Val := .obj [
  ("name", .str "ab"), ("area", .str "x"),
  ("perimeter", .bool true), ("coordinates", .null)]

/-- Witness for C7 at a concrete input: with required fields and name
passing and the area value unparseable, the returned error is the area
block's, although the later perimeter/coordinates checks would also
fail. -/
theorem validate_create_order_witness :
    validate_property_data badAreaBody = .invalid msgAreaNum := by
  have hfail : checkArea badAreaBody = .invalid msgAreaNum := by decide
  have h := validate_create_order.2 badAreaBody 2 checkArea rfl
    (fun m hm c2 hc2 => by
      interval_cases m
      · injection hc2 with h2; subst h2; decide
      · injection hc2 with h2; subst h2; decide)
    (by rw [hfail]; intro hc; cases hc)
  rw [h, hfail]

/-! ## C10 — the validator raises on a non-string name -/

/-- A creation payload whose `name` is a number. -/
def nonStrNameBody : Val := .obj [
  ("name", .num (.fin 5)), ("area", .num (.fin 1)),
  ("perimeter", .num (.fin 1)), ("coordinates", .null)]

def evNonStrName : Event := {
  httpMethod := "POST", path := "/properties", resource := "/properties",
  pathParameters := none, queryStringParameters := none,
  body := some (.json nonStrNameBody), requestContext := ctxU1 }

/-- C10: on a payload whose `name` is present but not a string, the
creation validator does not return a verdict — `.strip()` raises — and the
create handler's catch-all turns this into the generic 500 response (not a
400 validation failure), leaving the store untouched. -/
theorem create_nonstring_name_500 :
    validate_property_data nonStrNameBody = .exn
    ∧ create_property envD [] evNonStrName ("user1") = (internalErr, [])
    ∧ internalErr.statusCode = 500 := by
  refine ⟨by decide, by rfl, rfl⟩

/-! ## C5 — OPTIONS routing -/

/-- C5 (amended): every OPTIONS request whose caller identity resolves is
answered with the 200 CORS-preflight response, whatever the path and
resource, with no store mutation; the identity gate runs first, so an
OPTIONS request without an identity is answered 401 (see the
counterexample). -/
theorem options_preflight (env : Env) (s : Store) (e : Event) (u : String)
    (hm : e.httpMethod = "OPTIONS") (hu : extract_user_id e = some u) :
    lambda_handler env s e =
      (create_response 200 (.obj [("message", .str "CORS preflight")]), s) := by
  rw [lambda_handler, hu, hm]
  exact rfl

def evOptsAuth : Event := {
  httpMethod := "OPTIONS", path := "/any/path", resource := "/any/path",
  pathParameters := none, queryStringParameters := none, body := none,
  requestContext := ctxU1 }

def evOptsNoAuth : Event := {
  httpMethod := "OPTIONS", path := "/any/path", resource := "/any/path",
  pathParameters := none, queryStringParameters := none, body := none,
  requestContext := { claimsSub := none, authSub := none, cognitoId := none } }

/-- Witness for C5 (amended) at a concrete input. -/
theorem options_preflight_witness :
    lambda_handler envD [] evOptsAuth =
      (create_response 200 (.obj [("message", .str "CORS preflight")]), []) :=
  options_preflight envD [] evOptsAuth ("user1") rfl rfl

/-- C5 counterexample: an OPTIONS request without a resolved identity is
answered 401, not 200 — the claim "for every OPTIONS request, on any path,
the router returns a 200 CORS-preflight response" fails at this input. -/
theorem options_unauthenticated_401 :
    (lambda_handler envD [] evOptsNoAuth).1.statusCode = 401
    ∧ (lambda_handler envD [] evOptsNoAuth).1.statusCode ≠ 200 := by
  exact ⟨rfl, by decide⟩

/-! ## C6 — partial-update frame -/

theorem flook_setA_self (it : Item) (k : String) (v : Val) :
    flook (Item.setA it k v) k = some v := by
  induction it with
  | nil => simp [Item.setA, flook]
  | cons kv rest ih =>
    obtain ⟨k2, v2⟩ := kv
    by_cases h : k2 = k
    · simp [Item.setA, flook, h]
    · simp [Item.setA, flook, h, ih]

theorem flook_setA_ne (it : Item) (k f : String) (v : Val) (h : ¬ k = f) :
    flook (Item.setA it k v) f = flook it f := by
  induction it with
  | nil => simp [Item.setA, flook, h]
  | cons kv rest ih =>
    obtain ⟨k2, v2⟩ := kv
    have h4 : ¬ f = k := fun hc => h hc.symm
    by_cases h2 : k2 = k
    · simp [Item.setA, flook, h2, h, h4, ih]
    · by_cases h3 : k2 = f
      · simp [Item.setA, flook, h2, h3, h4]
      · simp [Item.setA, flook, h2, h3, h4, ih]

theorem applySets_append (it : Item) (a b : List (String × Val)) :
    Item.applySets it (a ++ b) = Item.applySets (Item.applySets it a) b := by
  induction a generalizing it with
  | nil => rfl
  | cons p rest ih =>
    obtain ⟨k, v⟩ := p
    rw [List.cons_append, Item.applySets, Item.applySets, ih]

theorem flook_applySets_notin (it : Item) (sets : List (String × Val))
    (f : String) (h : ∀ p ∈ sets, ¬ p.1 = f) :
    flook (Item.applySets it sets) f = flook it f := by
  induction sets generalizing it with
  | nil => rfl
  | cons p rest ih =>
    obtain ⟨k, v⟩ := p
    rw [Item.applySets]
    rw [ih _ (fun q hq => h q (List.mem_cons_of_mem (k, v) hq))]
    exact flook_setA_ne it k f v (h (k, v) (List.mem_cons_self (k, v) rest))

theorem buildSets_keys (upd : Val) (fs : List String) (sets : List (String × Val))
    (h : buildSets upd fs = some sets) :
    ∀ p ∈ sets, p.1 ∈ fs ∧ pyInStr p.1 upd = some true := by
  induction fs generalizing sets with
  | nil =>
    rw [buildSets] at h
    injection h with h2
    subst h2
    intro p hp
    simp at hp
  | cons f rest ih =>
    rw [buildSets] at h
    cases hin : pyInStr f upd with
    | none => rw [hin] at h; exact Option.noConfusion h
    | some b =>
      rw [hin] at h
      cases b with
      | false =>
        dsimp only at h
        rw [if_neg (by simp)] at h
        intro p hp
        obtain ⟨h1, h2⟩ := ih sets h p hp
        exact ⟨List.mem_cons_of_mem f h1, h2⟩
      | true =>
        dsimp only at h
        rw [if_pos rfl] at h
        cases hs : Val.subscr upd f with
        | none => rw [hs] at h; exact Option.noConfusion h
        | some v =>
          rw [hs] at h
          dsimp only at h
          cases hc : updFieldVal f v with
          | none => rw [hc] at h; exact Option.noConfusion h
          | some cv =>
            rw [hc] at h
            dsimp only at h
            cases hrest : buildSets upd rest with
            | none => rw [hrest] at h; exact Option.noConfusion h
            | some tail =>
              rw [hrest] at h
              injection h with h2
              subst h2
              intro p hp
              rcases List.mem_cons.mp hp with hp1 | hp2
              · subst hp1
                exact ⟨List.mem_cons_self f rest, hin⟩
              · obtain ⟨h1, h2⟩ := ih tail hrest p hp2
                exact ⟨List.mem_cons_of_mem f h1, h2⟩

/-- The `any` test underlying `pyInStr` on a dict is a key-membership
test. -/
theorem pyInStr_obj_true (upd : List (String × Val)) (f : String)
    (h : pyInStr f (.obj upd) = some true) : ∃ p ∈ upd, p.1 = f := by
  simp only [pyInStr, Option.some.injEq] at h
  obtain ⟨p, hp, he⟩ := List.any_eq_true.mp h
  exact ⟨p, hp, by simpa using he⟩

/-- Lexicographic code-point order on strings via their character lists
(Python `<` on strings; the chronological order of the ISO-8601 UTC
timestamps used here). -/
def charListLt : List Char → List Char → Bool
  | _, [] => false
  | [], _ :: _ => true
  | a :: as, b :: bs =>
    if a.toNat < b.toNat then true
    else if b.toNat < a.toNat then false
    else charListLt as bs

def strLt (a b : String) : Bool := charListLt a.data b.data

/-- C6: a partial update applying a subset of the mutable fields leaves
every attribute not named in the payload (other than `updatedAt`) at its
prior stored value — updating only `description` leaves `area`,
`perimeter`, `coordinates` and `name` unchanged — while `updatedAt` is
always rewritten to the invocation time, hence strictly greater than the
prior value whenever the clock has advanced past it; no other key of the
store is touched. -/
theorem update_frame (now : String) (s : Store) (uid pid : String)
    (upd : List (String × Val)) (prev : Item) (fp : Item) (s2 : Store)
    (hprev : Store.getItem s (uid, pid) = some prev)
    (hrun : update_property_data now s uid pid (.obj upd) = (some fp, s2)) :
    ∃ newIt : Item,
      Store.getItem s2 (uid, pid) = some newIt
      ∧ (∀ f : String, (∀ p ∈ upd, ¬ p.1 = f) → ¬ f = "updatedAt" →
          flook newIt f = flook prev f)
      ∧ flook newIt ("updatedAt") = some (.str now)
      ∧ (∀ t : String, flook prev ("updatedAt") = some (.str t) →
          strLt t now = true →
          ∃ u2 : String, flook newIt ("updatedAt") = some (.str u2) ∧
            strLt t u2 = true)
      ∧ (∀ k : DbKey, k ≠ (uid, pid) → Store.getItem s2 k = Store.getItem s k) := by
  rw [update_property_data] at hrun
  cases hb : buildSets (.obj upd) updatable_fields with
  | none => rw [hb] at hrun; simp at hrun
  | some sets =>
    rw [hb, hprev] at hrun
    dsimp only at hrun
    set newIt := Item.applySets prev (sets ++ [("updatedAt", Val.str now)]) with hnew
    cases hf : format_property_for_response newIt with
    | none =>
      rw [hf] at hrun
      simp at hrun
    | some fp2 =>
      rw [hf] at hrun
      simp only [Prod.mk.injEq, Option.some.injEq] at hrun
      obtain ⟨rfl, rfl⟩ := hrun
      have hupd : flook newIt ("updatedAt") = some (.str now) := by
        rw [hnew, applySets_append, Item.applySets, Item.applySets]
        exact flook_setA_self _ _ _
      refine ⟨newIt, getItem_put_self s (uid, pid) newIt, ?_, hupd, ?_, ?_⟩
      · intro f hnot hfu
        rw [hnew, applySets_append, Item.applySets, Item.applySets]
        rw [flook_setA_ne _ _ _ _ (fun hc => hfu hc.symm)]
        refine flook_applySets_notin prev sets f ?_
        intro p hp hpf
        obtain ⟨_, hin⟩ := buildSets_keys (.obj upd) updatable_fields sets hb p hp
        obtain ⟨q, hq, hqf⟩ := pyInStr_obj_true upd p.1 hin
        exact hnot q hq (hqf.trans hpf)
      · intro t _ ht
        exact ⟨now, hupd, ht⟩
      · intro k hk
        exact getItem_put_ne s (uid, pid) k newIt hk

/-- A stored record for the C6 witness. -/
def prevW : Item := [
  ("userId", .str "user1"), ("propertyId", .str "prop_0123456789ab"),
  ("name", .str "Fazenda Sol"), ("type", .str "fazenda"), ("description", .str ""),
  ("area", .dec (.fin 100)), ("perimeter", .dec (.fin 2000)),
  ("coordinates", .arr [
    .arr [.dec (.fin 0), .dec (.fin 0)],
    .arr [.dec (.fin 1), .dec (.fin 0)],
    .arr [.dec (.fin 1), .dec (.fin 1)],
    .arr [.dec (.fin 0), .dec (.fin 0)]]),
  ("analysisStatus", .str "pending"),
  ("createdAt", .str "2026-01-01T00:00:00+00:00"),
  ("updatedAt", .str "2026-01-01T00:00:00+00:00")]

def storeW2 : Store := [(("user1", "prop_0123456789ab"), prevW)]

/-- The formatted record returned by the witness update. -/
def fpW : Item := [
  ("id", .str "prop_0123456789ab"),
  ("name", .str "Fazenda Sol"),
  ("type", .str "fazenda"),
  ("description", .str "nova"),
  ("area", .num (.fin 100)),
  ("perimeter", .num (.fin 2000)),
  ("coordinates", .arr [
    .arr [.num (.fin 0), .num (.fin 0)],
    .arr [.num (.fin 1), .num (.fin 0)],
    .arr [.num (.fin 1), .num (.fin 1)],
    .arr [.num (.fin 0), .num (.fin 0)]]),
  ("analysisStatus", .str "pending"),
  ("createdAt", .str "2026-01-01T00:00:00+00:00"),
  ("updatedAt", .str "2026-01-02T00:00:00+00:00")]

/-- The stored record after the witness update. -/
def newItW : Item := [
  ("userId", .str "user1"), ("propertyId", .str "prop_0123456789ab"),
  ("name", .str "Fazenda Sol"), ("type", .str "fazenda"),
  ("description", .str "nova"),
  ("area", .dec (.fin 100)), ("perimeter", .dec (.fin 2000)),
  ("coordinates", .arr [
    .arr [.dec (.fin 0), .dec (.fin 0)],
    .arr [.dec (.fin 1), .dec (.fin 0)],
    .arr [.dec (.fin 1), .dec (.fin 1)],
    .arr [.dec (.fin 0), .dec (.fin 0)]]),
  ("analysisStatus", .str "pending"),
  ("createdAt", .str "2026-01-01T00:00:00+00:00"),
  ("updatedAt", .str "2026-01-02T00:00:00+00:00")]

def s2W : Store := [(("user1", "prop_0123456789ab"), newItW)]

/-- Witness for C6 at a concrete input: updating only `description`
leaves `name`, `area`, `perimeter` and `coordinates` at their prior stored
values and rewrites `updatedAt` to the (later) invocation time. -/
theorem update_frame_witness :
    ∃ newIt : Item,
      Store.getItem s2W ("user1", "prop_0123456789ab") = some newIt
      ∧ flook newIt ("name") = flook prevW ("name")
      ∧ flook newIt ("area") = flook prevW ("area")
      ∧ flook newIt ("perimeter") = flook prevW ("perimeter")
      ∧ flook newIt ("coordinates") = flook prevW ("coordinates")
      ∧ flook newIt ("updatedAt") = some (.str "2026-01-02T00:00:00+00:00")
      ∧ ∃ u2 : String, strLt ("2026-01-01T00:00:00+00:00") u2 = true := by
  obtain ⟨newIt, h1, h2, h3, h4, _⟩ :=
    update_frame ("2026-01-02T00:00:00+00:00") storeW2 ("user1")
      ("prop_0123456789ab") [("description", .str "nova")] prevW fpW s2W
      rfl rfl
  have hone : ∀ f : String, ¬ ("description" : String) = f →
      (∀ p ∈ [(("description" : String), Val.str "nova")], ¬ p.1 = f) := by
    intro f hf p hp
    rcases List.mem_singleton.mp hp with rfl
    exact hf
  obtain ⟨u2, hu2, hlt⟩ := h4 ("2026-01-01T00:00:00+00:00") rfl (by decide)
  exact ⟨newIt, h1,
    h2 ("name") (hone _ (by decide)) (by decide),
    h2 ("area") (hone _ (by decide)) (by decide),
    h2 ("perimeter") (hone _ (by decide)) (by decide),
    h2 ("coordinates") (hone _ (by decide)) (by decide),
    h3, u2, hlt⟩

/-! ## C2 — format then re-validate -/

theorem tinyDouble_le_one : tinyDouble ≤ 1 := by
  rw [tinyDouble, Rat.mkRat_eq_div]
  rw [div_le_one (by exact_mod_cast pow_pos (show 0 < 2 by norm_num) 1075)]
  exact_mod_cast Nat.one_le_two_pow

theorem maxDouble_big : (1000000 : ℚ) < maxDouble := by
  rw [maxDouble]
  have h1 : (1000000 : ℕ) < 2 ^ 20 := by norm_num
  have h2 : (2 : ℕ) ^ 20 ≤ 2 ^ 970 := Nat.pow_le_pow_right (by norm_num) (by norm_num)
  have h3 : (2 : ℕ) ^ 970 + 2 ^ 970 ≤ 2 ^ 1024 := by
    have h : (2 : ℕ) ^ 971 ≤ 2 ^ 1024 := Nat.pow_le_pow_right (by norm_num) (by norm_num)
    calc (2 : ℕ) ^ 970 + 2 ^ 970 = 2 ^ 971 := by ring
    _ ≤ 2 ^ 1024 := h
  have k1 : (1000000 : ℕ) < 2 ^ 1024 - 2 ^ 970 := by omega
  exact_mod_cast k1

theorem maxDouble_pos : 0 < maxDouble := lt_trans (by norm_num) maxDouble_big

theorem mkRat_intCast (n : ℤ) : mkRat n 1 = (n : ℚ) := by
  rw [Rat.mkRat_eq_div]
  norm_num

theorem mkRat_half : mkRat 1 2 = (1 : ℚ) / 2 := by
  rw [Rat.mkRat_eq_div]
  norm_num

theorem qpow2_eq_zpow (e : ℤ) : qpow2 e = (2 : ℚ) ^ e := by
  rw [qpow2]
  split
  · rename_i h
    rw [show ((2 ^ e.toNat : ℕ) : ℚ) = (2 : ℚ) ^ e.toNat by push_cast; ring]
    rw [← zpow_natCast, Int.toNat_of_nonneg h]
  · rename_i h
    rw [Rat.mkRat_eq_div]
    rw [show ((2 ^ (-e).toNat : ℕ) : ℚ) = (2 : ℚ) ^ (-e).toNat by push_cast; ring]
    rw [← zpow_natCast (2 : ℚ) (-e).toNat, Int.toNat_of_nonneg (by omega : (0:ℤ) ≤ -e)]
    rw [show ((1 : ℤ) : ℚ) = 1 by norm_num, one_div, ← zpow_neg, neg_neg]

theorem qpow2_pos (e : ℤ) : 0 < qpow2 e := by
  rw [qpow2_eq_zpow]
  positivity

theorem qpow2_add (a b : ℤ) : qpow2 (a + b) = qpow2 a * qpow2 b := by
  rw [qpow2_eq_zpow, qpow2_eq_zpow, qpow2_eq_zpow]
  exact zpow_add₀ (by norm_num) a b

theorem qpow2_le_qpow2 {a b : ℤ} (h : a ≤ b) : qpow2 a ≤ qpow2 b := by
  rw [qpow2_eq_zpow, qpow2_eq_zpow]
  exact zpow_le_zpow_right₀ (by norm_num) h

theorem qpow2_lt_qpow2 {a b : ℤ} (h : a < b) : qpow2 a < qpow2 b := by
  rw [qpow2_eq_zpow, qpow2_eq_zpow]
  exact zpow_lt_zpow_right₀ (by norm_num) h

theorem lt_of_qpow2_lt {a b : ℤ} (h : qpow2 a < qpow2 b) : a < b := by
  by_contra hc
  exact absurd h (not_lt.mpr (qpow2_le_qpow2 (not_lt.mp hc)))

theorem tinyDouble_eq_qpow2 : tinyDouble = qpow2 (-1075) := rfl

theorem tinyDouble_pos : 0 < tinyDouble := by
  rw [tinyDouble_eq_qpow2]
  exact qpow2_pos _

theorem qFloorZ_le (x : ℚ) : (qFloorZ x : ℚ) ≤ x := by
  have hb : (0 : ℤ) < (x.den : ℤ) := by exact_mod_cast x.pos
  have hd : (0 : ℚ) < ((x.den : ℕ) : ℚ) := by exact_mod_cast x.pos
  have hx := Rat.num_div_den x
  rw [qFloorZ, Int.fdiv_eq_ediv _ (le_of_lt hb)]
  set f : ℤ := x.num / (x.den : ℤ) with hf
  have h := Int.ediv_mul_le x.num (b := (x.den : ℤ)) (by omega)
  rw [← hf] at h
  rw [← hx, le_div_iff₀ hd]
  exact_mod_cast h

theorem lt_qFloorZ_add_one (x : ℚ) : x < (qFloorZ x : ℚ) + 1 := by
  have hb : (0 : ℤ) < (x.den : ℤ) := by exact_mod_cast x.pos
  have hd : (0 : ℚ) < ((x.den : ℕ) : ℚ) := by exact_mod_cast x.pos
  have hx := Rat.num_div_den x
  rw [qFloorZ, Int.fdiv_eq_ediv _ (le_of_lt hb)]
  set f : ℤ := x.num / (x.den : ℤ) with hf
  have h := Int.lt_ediv_add_one_mul_self x.num hb
  rw [← hf] at h
  rw [← hx, div_lt_iff₀ hd]
  exact_mod_cast h

theorem roundHalfEven_bounds (y : ℚ) :
    y - 1 / 2 ≤ (roundHalfEven y : ℚ) ∧ (roundHalfEven y : ℚ) ≤ y + 1 / 2 := by
  have h1 := qFloorZ_le y
  have h2 := lt_qFloorZ_add_one y
  rw [roundHalfEven]
  simp only [qAdd_eq, qNeg_eq, mkRat_intCast, mkRat_half]
  split
  · rename_i hlt
    constructor <;> linarith
  · split
    · rename_i hge hgt
      push_cast
      constructor <;> linarith
    · rename_i hge hle
      split
      · constructor <;> linarith
      · push_cast
        constructor <;> linarith

theorem roundHalfEven_le_int (y : ℚ) (N : ℤ) (h : y ≤ (N : ℚ)) :
    roundHalfEven y ≤ N := by
  obtain ⟨_, hb2⟩ := roundHalfEven_bounds y
  have hlt : (roundHalfEven y : ℚ) < (N : ℚ) + 1 := by linarith
  have hz : roundHalfEven y < N + 1 := by exact_mod_cast hlt
  omega

theorem roundHalfEven_ge_int (y : ℚ) (N : ℤ) (h : (N : ℚ) ≤ y) :
    N ≤ roundHalfEven y := by
  obtain ⟨hb1, _⟩ := roundHalfEven_bounds y
  have hlt : ((N : ℚ)) - 1 < (roundHalfEven y : ℚ) := by linarith
  have hz : N - 1 < roundHalfEven y := by exact_mod_cast hlt
  omega

theorem expSearch_correct (fuel : ℕ) : ∀ (lo hi : ℤ) (x : ℚ),
    qpow2 lo ≤ x → x < qpow2 hi → lo < hi → (hi - lo).toNat ≤ 2 ^ fuel →
    qpow2 (expSearch fuel lo hi x) ≤ x ∧ x < qpow2 (expSearch fuel lo hi x + 1) ∧
    lo ≤ expSearch fuel lo hi x ∧ expSearch fuel lo hi x < hi := by
  induction fuel with
  | zero =>
    intro lo hi x hlo hhi hlt hgap
    rw [expSearch]
    have he : hi = lo + 1 := by omega
    subst he
    exact ⟨hlo, hhi, le_refl lo, by omega⟩
  | succ fuel ih =>
    intro lo hi x hlo hhi hlt hgap
    rw [expSearch]
    by_cases hg1 : (hi - lo).toNat ≤ 1
    · rw [if_pos hg1]
      have he : hi = lo + 1 := by omega
      subst he
      exact ⟨hlo, hhi, le_refl lo, by omega⟩
    · rw [if_neg hg1]
      have hpow : (2 : ℕ) ^ (fuel + 1) = 2 ^ fuel + 2 ^ fuel := by ring
      have hmlo : lo < lo + (((hi - lo).toNat / 2 : ℕ) : ℤ) := by omega
      have hmhi : lo + (((hi - lo).toNat / 2 : ℕ) : ℤ) < hi := by omega
      by_cases hcmp : qpow2 (lo + (((hi - lo).toNat / 2 : ℕ) : ℤ)) ≤ x
      · rw [if_pos hcmp]
        have hres := ih (lo + (((hi - lo).toNat / 2 : ℕ) : ℤ)) hi x hcmp hhi hmhi
          (by omega)
        exact ⟨hres.1, hres.2.1, le_trans (le_of_lt hmlo) hres.2.2.1, hres.2.2.2⟩
      · rw [if_neg hcmp]
        have hres := ih lo (lo + (((hi - lo).toNat / 2 : ℕ) : ℤ)) x hlo
          (lt_of_not_le hcmp) hmlo (by omega)
        exact ⟨hres.1, hres.2.1, hres.2.2.1, lt_trans hres.2.2.2 hmhi⟩

theorem maxDouble_lt_qpow2_1024 : maxDouble < qpow2 1024 := by
  rw [maxDouble, qpow2, if_pos (by norm_num)]
  have ht : ((1024 : ℤ)).toNat = 1024 := rfl
  rw [ht]
  have hpos : (0 : ℕ) < 2 ^ 970 := Nat.pos_pow_of_pos 970 (by norm_num)
  have h2 : (2 : ℕ) ^ 970 ≤ 2 ^ 1024 := Nat.pow_le_pow_right (by norm_num) (by norm_num)
  have h : (2 ^ 1024 - 2 ^ 970 : ℕ) < 2 ^ 1024 := by omega
  exact_mod_cast h

theorem expSearch_spec (x : ℚ) (h1 : tinyDouble < x) (h2 : x < qpow2 1024) :
    qpow2 (expSearch 16 (-1075) 1024 x) ≤ x ∧
    x < qpow2 (expSearch 16 (-1075) 1024 x + 1) ∧
    -1075 ≤ expSearch 16 (-1075) 1024 x ∧ expSearch 16 (-1075) 1024 x < 1024 := by
  have hlo : qpow2 (-1075) ≤ x := le_of_lt (tinyDouble_eq_qpow2 ▸ h1)
  exact expSearch_correct 16 (-1075) 1024 x hlo h2 (by norm_num) (by norm_num)

theorem floatRoundPos_nonneg (x : ℚ) : 0 ≤ floatRoundPos x := by
  rw [floatRoundPos]
  split
  · exact le_refl 0
  · rename_i hx
    simp only [qMul_eq, mkRat_intCast]
    have hx0 : 0 < x := lt_trans tinyDouble_pos (lt_of_not_le hx)
    have hy : (0 : ℚ) ≤ x * qpow2 (-(gridExp x)) :=
      mul_nonneg (le_of_lt hx0) (le_of_lt (qpow2_pos _))
    have hr := roundHalfEven_ge_int (x * qpow2 (-(gridExp x))) 0 (by exact_mod_cast hy)
    have hrq : (0 : ℚ) ≤ (roundHalfEven (x * qpow2 (-(gridExp x))) : ℚ) := by
      exact_mod_cast hr
    exact mul_nonneg hrq (le_of_lt (qpow2_pos _))

theorem floatRoundPos_pos (x : ℚ) (h1 : tinyDouble < x) (h2 : x < qpow2 1024) :
    0 < floatRoundPos x := by
  rw [floatRoundPos, if_neg (not_le.mpr h1)]
  simp only [qMul_eq, mkRat_intCast]
  obtain ⟨he1, he2, helo, hehi⟩ := expSearch_spec x h1 h2
  have hy : (1 : ℚ) / 2 < x * qpow2 (-(gridExp x)) := by
    rcases le_or_lt (expSearch 16 (-1075) 1024 x - 52) (-1074) with hc | hc
    · have hg : gridExp x = -1074 := by rw [gridExp]; omega
      rw [hg]
      have hhalf : tinyDouble * qpow2 (-(-1074 : ℤ)) = 1 / 2 := by
        rw [tinyDouble_eq_qpow2, ← qpow2_add]
        rw [show ((-1075 : ℤ) + -(-1074 : ℤ)) = -1 by norm_num]
        rw [show qpow2 (-1) = mkRat 1 2 from rfl, mkRat_half]
      have hmul : tinyDouble * qpow2 (-(-1074 : ℤ)) < x * qpow2 (-(-1074 : ℤ)) :=
        mul_lt_mul_of_pos_right h1 (qpow2_pos _)
      rw [hhalf] at hmul
      exact hmul
    · have hg : gridExp x = expSearch 16 (-1075) 1024 x - 52 := by rw [gridExp]; omega
      rw [hg]
      have h52 : qpow2 (expSearch 16 (-1075) 1024 x) *
          qpow2 (-(expSearch 16 (-1075) 1024 x - 52)) = qpow2 52 := by
        rw [← qpow2_add]
        congr 1
        omega
      have hmul : qpow2 (expSearch 16 (-1075) 1024 x) *
          qpow2 (-(expSearch 16 (-1075) 1024 x - 52)) ≤
          x * qpow2 (-(expSearch 16 (-1075) 1024 x - 52)) :=
        mul_le_mul_of_nonneg_right he1 (le_of_lt (qpow2_pos _))
      rw [h52] at hmul
      have h52big : (1 : ℚ) / 2 < qpow2 52 := by
        rw [qpow2, if_pos (by norm_num)]
        have hone : (1 : ℚ) ≤ ((2 ^ ((52 : ℤ)).toNat : ℕ) : ℚ) := by
          exact_mod_cast Nat.one_le_two_pow
        linarith
      linarith
  obtain ⟨hb1, _⟩ := roundHalfEven_bounds (x * qpow2 (-(gridExp x)))
  have hr0 : (0 : ℚ) < (roundHalfEven (x * qpow2 (-(gridExp x))) : ℚ) := by linarith
  exact mul_pos hr0 (qpow2_pos _)

theorem floatRoundPos_le_bound (x B : ℚ) (tB : ℤ) (N : ℕ)
    (hx : 0 < x) (hxB : x ≤ B)
    (hBN : B = (N : ℚ) * qpow2 tB)
    (hB53 : B < qpow2 (tB + 53))
    (htB1 : -1074 ≤ tB) (htB2 : tB ≤ 971) :
    floatRoundPos x ≤ B := by
  rw [floatRoundPos]
  split
  · exact le_trans (le_of_lt hx) hxB
  · rename_i hxt
    have h1 : tinyDouble < x := lt_of_not_le hxt
    have h2 : x < qpow2 1024 := by
      refine lt_of_le_of_lt hxB (lt_of_lt_of_le hB53 (qpow2_le_qpow2 (by omega)))
    simp only [qMul_eq, mkRat_intCast]
    obtain ⟨he1, he2, helo, hehi⟩ := expSearch_spec x h1 h2
    have htle : gridExp x ≤ tB := by
      have hq : qpow2 (expSearch 16 (-1075) 1024 x) < qpow2 (tB + 53) :=
        lt_of_le_of_lt (le_trans he1 hxB) hB53
      have := lt_of_qpow2_lt hq
      rw [gridExp]
      omega
    -- the bound is on the grid: B * 2^(-t) is the integer N * 2^(tB - t)
    set t := gridExp x with ht
    have hM : (N : ℚ) * qpow2 (tB - t) = ((N * 2 ^ (tB - t).toNat : ℕ) : ℚ) := by
      have hd : (0 : ℤ) ≤ tB - t := by omega
      rw [qpow2, if_pos hd]
      push_cast
      ring
    have hyle : x * qpow2 (-t) ≤ ((N * 2 ^ (tB - t).toNat : ℕ) : ℚ) := by
      rw [← hM]
      have hstep : B * qpow2 (-t) = (N : ℚ) * qpow2 (tB - t) := by
        rw [hBN, mul_assoc, ← qpow2_add, ← sub_eq_add_neg]
      rw [← hstep]
      exact mul_le_mul_of_nonneg_right hxB (le_of_lt (qpow2_pos _))
    have hr := roundHalfEven_le_int (x * qpow2 (-t)) ((N * 2 ^ (tB - t).toNat : ℕ) : ℤ)
      (by exact_mod_cast hyle)
    have hrq : (roundHalfEven (x * qpow2 (-t)) : ℚ) ≤ ((N * 2 ^ (tB - t).toNat : ℕ) : ℚ) := by
      exact_mod_cast hr
    have hfinal : (roundHalfEven (x * qpow2 (-t)) : ℚ) * qpow2 t ≤
        ((N * 2 ^ (tB - t).toNat : ℕ) : ℚ) * qpow2 t :=
      mul_le_mul_of_nonneg_right hrq (le_of_lt (qpow2_pos _))
    have hback : ((N * 2 ^ (tB - t).toNat : ℕ) : ℚ) * qpow2 t = B := by
      rw [← hM, mul_assoc, ← qpow2_add, hBN]
      congr 2
      omega
    rw [hback] at hfinal
    exact hfinal

theorem floatRoundMag_bounds (q B : ℚ) (tB : ℤ) (N : ℕ)
    (hq1 : -B ≤ q) (hq2 : q ≤ B)
    (hBN : B = (N : ℚ) * qpow2 tB) (hB53 : B < qpow2 (tB + 53))
    (htB1 : -1074 ≤ tB) (htB2 : tB ≤ 971) :
    -B ≤ floatRoundMag q ∧ floatRoundMag q ≤ B := by
  have hB0 : 0 ≤ B := by
    rcases le_or_lt 0 q with h | h
    · linarith
    · linarith
  rw [floatRoundMag]
  split
  · rename_i hneg
    rw [qNeg_eq, qNeg_eq]
    have hq' : 0 < -q := by linarith
    have hq'B : -q ≤ B := by linarith
    have hup := floatRoundPos_le_bound (-q) B tB N hq' hq'B hBN hB53 htB1 htB2
    have hnn := floatRoundPos_nonneg (-q)
    constructor <;> linarith
  · rename_i hpos
    have h0 : 0 ≤ q := not_lt.mp hpos
    rcases eq_or_lt_of_le h0 with heq | hlt
    · rw [floatRoundPos, if_pos (by rw [← heq]; exact le_of_lt tinyDouble_pos)]
      constructor <;> linarith
    · have hup := floatRoundPos_le_bound q B tB N hlt hq2 hBN hB53 htB1 htB2
      have hnn := floatRoundPos_nonneg q
      constructor <;> linarith

theorem floatRoundMag_bounds180 (q : ℚ) (h1 : -180 ≤ q) (h2 : q ≤ 180) :
    -180 ≤ floatRoundMag q ∧ floatRoundMag q ≤ 180 := by
  refine floatRoundMag_bounds q 180 (-45) (180 * 2 ^ 45) h1 h2 ?_ ?_ (by norm_num)
    (by norm_num)
  · rw [qpow2, if_neg (by norm_num), Rat.mkRat_eq_div,
      show ((-(-45 : ℤ)).toNat) = 45 from rfl]
    norm_num
  · rw [show ((-45 : ℤ) + 53) = 8 by norm_num, qpow2, if_pos (by norm_num),
      show (((8 : ℤ)).toNat) = 8 from rfl]
    norm_num

theorem floatRoundMag_bounds90 (q : ℚ) (h1 : -90 ≤ q) (h2 : q ≤ 90) :
    -90 ≤ floatRoundMag q ∧ floatRoundMag q ≤ 90 := by
  refine floatRoundMag_bounds q 90 (-46) (90 * 2 ^ 46) h1 h2 ?_ ?_ (by norm_num)
    (by norm_num)
  · rw [qpow2, if_neg (by norm_num), Rat.mkRat_eq_div,
      show ((-(-46 : ℤ)).toNat) = 46 from rfl]
    norm_num
  · rw [show ((-46 : ℤ) + 53) = 7 by norm_num, qpow2, if_pos (by norm_num),
      show (((7 : ℤ)).toNat) = 7 from rfl]
    norm_num

theorem floatRoundPos_le_1e6 (a : ℚ) (h1 : 0 < a) (h2 : a ≤ 1000000) :
    floatRoundPos a ≤ 1000000 := by
  refine floatRoundPos_le_bound a 1000000 (-33) (1000000 * 2 ^ 33) h1 h2 ?_ ?_
    (by norm_num) (by norm_num)
  · rw [qpow2, if_neg (by norm_num), Rat.mkRat_eq_div,
      show ((-(-33 : ℤ)).toNat) = 33 from rfl]
    norm_num
  · rw [show ((-33 : ℤ) + 53) = 20 by norm_num, qpow2, if_pos (by norm_num),
      show (((20 : ℤ)).toNat) = 20 from rfl]
    norm_num

theorem floatRoundMag_of_nonneg (q : ℚ) (h : 0 ≤ q) :
    floatRoundMag q = floatRoundPos q := by
  rw [floatRoundMag, if_neg (not_lt.mpr h)]

theorem lt_qpow2_1024_of_le_1e6 (a : ℚ) (h : a ≤ 1000000) : a < qpow2 1024 := by
  have h20 : (1000000 : ℚ) < qpow2 20 := by
    rw [qpow2, if_pos (by norm_num), show (((20 : ℤ)).toNat) = 20 from rfl]
    norm_num
  exact lt_of_le_of_lt h (lt_trans h20 (qpow2_lt_qpow2 (by norm_num)))


/-- The in-range row of the saturating conversion. -/
theorem strToFloat_fin (q : ℚ) (h1 : ¬ maxDouble ≤ q) (h2 : ¬ q ≤ qNeg maxDouble) :
    strToFloat q = .fin (floatRoundMag q) := by
  rw [strToFloat, if_neg h1, if_neg h2]

/-- A saturating conversion caught between finite float bounds is finite,
and its rounded value satisfies the bounds. -/
theorem strToFloat_bounds_elim (x lo hi : ℚ)
    (hg : (strToFloat x).geF lo = true) (hl : (strToFloat x).leF hi = true) :
    lo ≤ floatRoundMag x ∧ floatRoundMag x ≤ hi ∧
    strToFloat x = .fin (floatRoundMag x) := by
  by_cases h1 : maxDouble ≤ x
  · rw [strToFloat, if_pos h1] at hl
    exact absurd hl (by simp [PyDec.leF])
  · by_cases h2 : x ≤ qNeg maxDouble
    · rw [strToFloat, if_neg h1, if_pos h2] at hg
      exact absurd hg (by simp [PyDec.geF])
    · have hfin : strToFloat x = .fin (floatRoundMag x) := by
        rw [strToFloat, if_neg h1, if_neg h2]
      rw [hfin] at hg hl
      simp only [PyDec.geF, PyDec.leF, decide_eq_true_eq] at hg hl
      exact ⟨hg, hl, hfin⟩

/-- What a valid stored (Decimal) point guarantees: both components convert
to finite doubles whose rounded values satisfy the geographic bounds. -/
theorem validPoint_dec_elim (x y : ℚ)
    (h : validPoint (Val.arr [.dec (.fin x), .dec (.fin y)]) = true) :
    ((-180 : ℚ) ≤ floatRoundMag x ∧ floatRoundMag x ≤ 180 ∧
      strToFloat x = .fin (floatRoundMag x)) ∧
    ((-90 : ℚ) ≤ floatRoundMag y ∧ floatRoundMag y ≤ 90 ∧
      strToFloat y = .fin (floatRoundMag y)) := by
  have hh : ((strToFloat x).geF (-180) && (strToFloat x).leF 180 &&
      (strToFloat y).geF (-90) && (strToFloat y).leF 90) = true := h
  simp only [Bool.and_eq_true] at hh
  obtain ⟨⟨⟨h1, h2⟩, h3⟩, h4⟩ := hh
  exact ⟨strToFloat_bounds_elim x (-180) 180 h1 h2,
    strToFloat_bounds_elim y (-90) 90 h3 h4⟩

/-- A float point whose components are already rounded in-bounds values
passes `validPoint` (rounding an in-bounds value keeps it in bounds). -/
theorem validPoint_num_of_rounded (u v : ℚ)
    (hx1 : -180 ≤ u) (hx2 : u ≤ 180) (hy1 : -90 ≤ v) (hy2 : v ≤ 90) :
    validPoint (Val.arr [.num (.fin u), .num (.fin v)]) = true := by
  have hmd : (180 : ℚ) < maxDouble := lt_trans (by norm_num) maxDouble_big
  have hu : pyFloatOfRat u = some (.fin (floatRoundMag u)) := by
    rw [pyFloatOfRat, if_neg (not_le.mpr (by linarith)),
      if_neg (not_le.mpr (by rw [qNeg_eq]; linarith))]
  have hv : pyFloatOfRat v = some (.fin (floatRoundMag v)) := by
    rw [pyFloatOfRat, if_neg (not_le.mpr (by linarith)),
      if_neg (not_le.mpr (by rw [qNeg_eq]; linarith))]
  obtain ⟨hu1, hu2⟩ := floatRoundMag_bounds180 u hx1 hx2
  obtain ⟨hv1, hv2⟩ := floatRoundMag_bounds90 v hy1 hy2
  rw [validPoint]
  rw [show toFloat (Val.num (.fin u)) = pyFloatOfRat u from rfl,
      show toFloat (Val.num (.fin v)) = pyFloatOfRat v from rfl, hu, hv]
  simp only [PyDec.geF, PyDec.leF, Bool.and_eq_true, decide_eq_true_eq]
  exact ⟨⟨⟨hu1, hu2⟩, hv1⟩, hv2⟩

theorem checkAreaVal_pass (v : Val) (q : ℚ) (h : toDec v = some (.fin q))
    (h1 : 0 < q) (h2 : q ≤ 1000000) : checkAreaVal v = .valid :=
  (checkAreaVal_valid_iff v).mpr ⟨q, h, h1, h2⟩

theorem checkPerimeterVal_pos (v : Val) (q : ℚ) (h : toDec v = some (.fin q))
    (hq : 0 < q) : checkPerimeterVal v = .valid := by
  rw [checkPerimeterVal, h]
  simp only [PyDec.decLe, decide_eq_false (not_le.mpr hq)]

/-- An infinite perimeter re-validates: `Decimal('Infinity') > 0` is `True`
and the update validator has no upper perimeter bound. -/
theorem checkPerimeterVal_inf : checkPerimeterVal (.num .inf) = .valid := rfl

/-- Shape of a record as the creation path writes it: the guarantees the
creation validator and item construction establish for every stored
field.  The coordinate bounds hold for the rounded (`float`) values — the
exact stored Decimals may exceed them by less than a rounding step. -/
structure StoredValid (p : Item) : Prop where
  nameOk : ∃ s : String, flook p ("name") = some (.str s) ∧
    2 ≤ (String.mk (trimCharList s.data)).length ∧
    (String.mk (trimCharList s.data)).length ≤ 100
  typeOk : ∃ t : String, flook p ("type") = some (.str t) ∧ t ∈ valid_types
  descrOk : ∃ d n, flook p ("description") = some d ∧ pyLen d = some n ∧ n ≤ 500
  areaOk : ∃ a : ℚ, flook p ("area") = some (.dec (.fin a)) ∧ 0 < a ∧ a ≤ 1000000
  perimOk : ∃ r : ℚ, flook p ("perimeter") = some (.dec (.fin r)) ∧ 0 < r
  coordsOk : ∃ cs : List Val, flook p ("coordinates") = some (.arr cs) ∧
    4 ≤ cs.length ∧
    (∀ c ∈ cs, ∃ x y : ℚ, c = Val.arr [.dec (.fin x), .dec (.fin y)] ∧
      validPoint c = true) ∧
    (∃ a b, cs.head? = some a ∧ cs.getLast? = some b ∧ pyEq a b = true)

/-- Elementwise float conversion of a stored decimal ring: it succeeds and
produces valid float points related pointwise to the originals by
rounding. -/
theorem convFloatList_spec (cs : List Val)
    (h : ∀ c ∈ cs, ∃ x y : ℚ, c = Val.arr [.dec (.fin x), .dec (.fin y)] ∧
      validPoint c = true) :
    ∃ cs2 : List Val, convFloatList cs = some cs2 ∧
      (∀ c2 ∈ cs2, validPoint c2 = true) ∧
      List.Forall₂ (fun c c2 => ∃ x y : ℚ,
        c = Val.arr [.dec (.fin x), .dec (.fin y)] ∧
        c2 = Val.arr [.num (.fin (floatRoundMag x)), .num (.fin (floatRoundMag y))])
        cs cs2 := by
  induction cs with
  | nil => exact ⟨[], rfl, by intro c2 hc2; simp at hc2, List.Forall₂.nil⟩
  | cons c rest ih =>
    obtain ⟨x, y, rfl, hvp⟩ := h _ (List.mem_cons_self c rest)
    obtain ⟨cs2, hconv, hvp2, hrel⟩ :=
      ih (fun c2 hc2 => h c2 (List.mem_cons_of_mem _ hc2))
    obtain ⟨⟨hx1, hx2, hxf⟩, ⟨hy1, hy2, hyf⟩⟩ := validPoint_dec_elim x y hvp
    have hxc : toFloat (Val.dec (.fin x)) = some (.fin (floatRoundMag x)) := by
      rw [show toFloat (Val.dec (.fin x)) = some (strToFloat x) from rfl, hxf]
    have hyc : toFloat (Val.dec (.fin y)) = some (.fin (floatRoundMag y)) := by
      rw [show toFloat (Val.dec (.fin y)) = some (strToFloat y) from rfl, hyf]
    refine ⟨Val.arr [.num (.fin (floatRoundMag x)), .num (.fin (floatRoundMag y))] :: cs2,
      ?_, ?_, List.Forall₂.cons ⟨x, y, rfl, rfl⟩ hrel⟩
    · rw [convFloatList, hxc, hyc, hconv]
    · intro c2 hc2
      rcases List.mem_cons.mp hc2 with rfl | hc2m
      · exact validPoint_num_of_rounded _ _ hx1 hx2 hy1 hy2
      · exact hvp2 c2 hc2m

theorem forall2_getLast? {R : Val → Val → Prop} {l1 l2 : List Val}
    (h : List.Forall₂ R l1 l2) :
    (l1.getLast? = none ∧ l2.getLast? = none) ∨
      ∃ a b, l1.getLast? = some a ∧ l2.getLast? = some b ∧ R a b := by
  induction h with
  | nil => exact Or.inl ⟨rfl, rfl⟩
  | cons hr hrest ih =>
    rename_i a b t1 t2
    rcases ih with ⟨h1, h2⟩ | ⟨a2, b2, h1, h2, hr2⟩
    · have e1 : t1 = [] := by
        cases t1 with
        | nil => rfl
        | cons u v => simp at h1
      have e2 : t2 = [] := by
        cases t2 with
        | nil => rfl
        | cons u v => simp_all
      subst e1; subst e2
      exact Or.inr ⟨a, b, rfl, rfl, hr⟩
    · refine Or.inr ⟨a2, b2, ?_, ?_, hr2⟩
      · cases t1 with
        | nil => cases h1
        | cons u v => rw [List.getLast?_cons_cons]; exact h1
      · cases t2 with
        | nil => cases h2
        | cons u v => rw [List.getLast?_cons_cons]; exact h2

theorem checkUpdName_pass (data : Val) (s : String)
    (hin : pyInStr ("name") data = some true)
    (hsub : Val.subscr data ("name") = some (.str s))
    (h2 : 2 ≤ (String.mk (trimCharList s.data)).length)
    (h100 : (String.mk (trimCharList s.data)).length ≤ 100) :
    checkUpdName data = .valid := by
  have hne : (String.mk (trimCharList s.data) == "") = false := by
    refine beq_eq_false_iff_ne.mpr ?_
    intro hc
    rw [hc] at h2
    simp at h2
  rw [checkUpdName, hin, hsub]
  dsimp only [pyStrip]
  rw [hne, decide_eq_false (not_lt.mpr h2)]
  rw [if_neg (by simp), if_neg (not_lt.mpr h100)]

theorem checkUpdArea_pass (data v : Val)
    (hin : pyInStr ("area") data = some true)
    (hsub : Val.subscr data ("area") = some v)
    (hv : checkAreaVal v = .valid) :
    checkUpdArea data = .valid := by
  rw [checkUpdArea, hin, hsub]
  exact hv

theorem checkUpdPerimeter_pass (data v : Val)
    (hin : pyInStr ("perimeter") data = some true)
    (hsub : Val.subscr data ("perimeter") = some v)
    (hv : checkPerimeterVal v = .valid) :
    checkUpdPerimeter data = .valid := by
  rw [checkUpdPerimeter, hin, hsub]
  exact hv

theorem checkUpdCoordinates_pass (data c : Val)
    (hin : pyInStr ("coordinates") data = some true)
    (hsub : Val.subscr data ("coordinates") = some c)
    (hc : validate_coordinates c = true) :
    checkUpdCoordinates data = .valid := by
  rw [checkUpdCoordinates, hin, hsub]
  dsimp only
  rw [hc]
  rfl

theorem checkUpdType_pass (data : Val) (t : String)
    (hin : pyInStr ("type") data = some true)
    (hsub : Val.subscr data ("type") = some (.str t))
    (hmem : t ∈ valid_types) :
    checkUpdType data = .valid := by
  have hany : valid_types.any (fun s2 => pyEq (.str t) (.str s2)) = true :=
    List.any_eq_true.mpr ⟨t, hmem, by simp [pyEq]⟩
  rw [checkUpdType, hin, hsub]
  dsimp only
  rw [hany]
  rfl

theorem checkUpdDescription_pass (data d : Val) (n : ℕ)
    (hin : pyInStr ("description") data = some true)
    (hsub : Val.subscr data ("description") = some d)
    (hlen : pyLen d = some n) (h500 : n ≤ 500) :
    checkUpdDescription data = .valid := by
  rw [checkUpdDescription, hin, hsub]
  dsimp only
  rw [hlen]
  dsimp only
  rw [if_neg (not_lt.mpr h500)]

theorem rounded_closure {pa pb a2 b2 : Val}
    (h1 : ∃ x y : ℚ, pa = Val.arr [.dec (.fin x), .dec (.fin y)] ∧
      a2 = Val.arr [.num (.fin (floatRoundMag x)), .num (.fin (floatRoundMag y))])
    (h2 : ∃ x y : ℚ, pb = Val.arr [.dec (.fin x), .dec (.fin y)] ∧
      b2 = Val.arr [.num (.fin (floatRoundMag x)), .num (.fin (floatRoundMag y))])
    (he : pyEq pa pb = true) : pyEq a2 b2 = true := by
  obtain ⟨xa, ya, rfl, rfl⟩ := h1
  obtain ⟨xb, yb, rfl, rfl⟩ := h2
  simp only [pyEq, pyEqList, PyDec.numEq, Bool.and_eq_true, beq_iff_eq] at he
  obtain ⟨hx, hy, -⟩ := he
  subst hx
  subst hy
  simp [pyEq, pyEqList, PyDec.numEq]

/-- C2 (amended): formatting a stored (creation-valid) record to its
response shape and re-validating it as an update payload succeeds,
provided the record's `area` and `perimeter` lie strictly above the double
underflow threshold (`tinyDouble`).  No upper hypothesis is needed: a
stored area is at most `1e6` and a huge stored perimeter formats to `inf`,
which the positivity recheck accepts.  Stored positive values at or below
the threshold (reachable, e.g. area `"1e-400"`) format to `0.0` and are
rejected by re-validation; see the counterexample. -/
theorem format_revalidate (p : Item) (hp : StoredValid p)
    (hrange : ∀ q : ℚ,
      (flook p ("area") = some (.dec (.fin q)) ∨
       flook p ("perimeter") = some (.dec (.fin q))) →
      tinyDouble < q) :
    ∃ fp : Item, format_property_for_response p = some fp ∧
      validate_update_data (.obj fp) = .valid := by
  obtain ⟨s, hname, hs2, hs100⟩ := hp.nameOk
  obtain ⟨t, htype, htmem⟩ := hp.typeOk
  obtain ⟨d, n, hdesc, hdlen, hd500⟩ := hp.descrOk
  obtain ⟨a, harea, ha0, ha1M⟩ := hp.areaOk
  obtain ⟨r, hperim, hr0⟩ := hp.perimOk
  obtain ⟨cs, hcoords, hcs4, hcspts, pa, pb, hph, hpl, hpe⟩ := hp.coordsOk
  have hat := hrange a (Or.inl harea)
  have hrt := hrange r (Or.inr hperim)
  have hmd6 : (1000000 : ℚ) < maxDouble := maxDouble_big
  have hafin : strToFloat a = .fin (floatRoundMag a) := by
    refine strToFloat_fin a (not_le.mpr (by linarith)) (not_le.mpr ?_)
    rw [qNeg_eq]
    linarith
  have haf : toFloat ((flook p ("area")).getD (.num (.fin 0))) =
      some (.fin (floatRoundMag a)) := by
    rw [harea]
    show some (strToFloat a) = some (.fin (floatRoundMag a))
    rw [hafin]
  have ha0f : 0 < floatRoundMag a := by
    rw [floatRoundMag_of_nonneg a (le_of_lt ha0)]
    exact floatRoundPos_pos a hat (lt_qpow2_1024_of_le_1e6 a ha1M)
  have ha1Mf : floatRoundMag a ≤ 1000000 := by
    rw [floatRoundMag_of_nonneg a (le_of_lt ha0)]
    exact floatRoundPos_le_1e6 a ha0 ha1M
  have hperimF : ∃ pf : PyDec,
      toFloat ((flook p ("perimeter")).getD (.num (.fin 0))) = some pf ∧
      checkPerimeterVal (.num pf) = .valid := by
    by_cases hbig : maxDouble ≤ r
    · refine ⟨.inf, ?_, checkPerimeterVal_inf⟩
      rw [hperim]
      show some (strToFloat r) = some PyDec.inf
      rw [strToFloat, if_pos hbig]
    · have hrfin : strToFloat r = .fin (floatRoundMag r) := by
        refine strToFloat_fin r hbig (not_le.mpr ?_)
        rw [qNeg_eq]
        have := maxDouble_pos
        linarith
      refine ⟨.fin (floatRoundMag r), ?_, ?_⟩
      · rw [hperim]
        show some (strToFloat r) = some (.fin (floatRoundMag r))
        rw [hrfin]
      · have hr0f : 0 < floatRoundMag r := by
          rw [floatRoundMag_of_nonneg r (le_of_lt hr0)]
          exact floatRoundPos_pos r hrt
            (lt_trans (lt_of_not_le hbig) maxDouble_lt_qpow2_1024)
        exact checkPerimeterVal_pos (.num (.fin (floatRoundMag r)))
          (floatRoundMag r) rfl hr0f
  obtain ⟨pf, hrf, hpfv⟩ := hperimF
  obtain ⟨cs2, hconv, hvp, hrel⟩ := convFloatList_spec cs hcspts
  have hcf : convert_coordinates_to_float ((flook p ("coordinates")).getD (.arr []))
      = some (.arr cs2) := by
    rw [hcoords]
    show (convFloatList cs).map Val.arr = _
    rw [hconv]
    rfl
  have hlen2 : cs2.length = cs.length := (List.Forall₂.length_eq hrel).symm
  have hcl : validate_coordinates (.arr cs2) = true := by
    refine (validate_coordinates_iff (.arr cs2)).mpr ⟨cs2, rfl, ?_, hvp, ?_⟩
    · rw [hlen2]; exact hcs4
    · cases cs with
      | nil => cases hph
      | cons c0 csr =>
        cases hrel with
        | cons hr0 hrest =>
          rename_i c2h cs2r
          injection hph with hph2
          subst hph2
          rcases forall2_getLast? (List.Forall₂.cons hr0 hrest) with
            ⟨hn1, _⟩ | ⟨a3, b3, hl1, hl2, hr3⟩
          · rw [hn1] at hpl; cases hpl
          · rw [hl1] at hpl
            injection hpl with hpl2
            subst hpl2
            refine ⟨c2h, b3, rfl, hl2, ?_⟩
            cases csr with
            | nil =>
              cases hrest with
              | nil =>
                simp at hl2
                subst hl2
                exact rounded_closure hr0 hr3 hpe
            | cons _ _ => exact rounded_closure hr0 hr3 hpe
  refine ⟨[
    ("id", (flook p ("propertyId")).getD .null),
    ("name", .str s),
    ("type", .str t),
    ("description", d),
    ("area", .num (.fin (floatRoundMag a))),
    ("perimeter", .num pf),
    ("coordinates", .arr cs2),
    ("analysisStatus", (flook p ("analysisStatus")).getD (.str "pending")),
    ("createdAt", (flook p ("createdAt")).getD .null),
    ("updatedAt", (flook p ("updatedAt")).getD .null)], ?_, ?_⟩
  · rw [format_property_for_response, haf, hrf, hcf, hname, htype, hdesc]
    rfl
  · have hval : ∀ idv asv cav uav : Val,
        validate_update_data (.obj [
          ("id", idv), ("name", .str s), ("type", .str t), ("description", d),
          ("area", .num (.fin (floatRoundMag a))), ("perimeter", .num pf),
          ("coordinates", .arr cs2), ("analysisStatus", asv),
          ("createdAt", cav), ("updatedAt", uav)]) = .valid := by
      intro idv asv cav uav
      have harea2 : toDec (Val.num (.fin (floatRoundMag a))) =
          some (.fin (floatRoundMag a)) := rfl
      have c1 := checkUpdName_pass (Val.obj [
          ("id", idv), ("name", .str s), ("type", .str t), ("description", d),
          ("area", .num (.fin (floatRoundMag a))), ("perimeter", .num pf),
          ("coordinates", .arr cs2), ("analysisStatus", asv),
          ("createdAt", cav), ("updatedAt", uav)]) s rfl rfl hs2 hs100
      have c2 := checkUpdArea_pass (Val.obj [
          ("id", idv), ("name", .str s), ("type", .str t), ("description", d),
          ("area", .num (.fin (floatRoundMag a))), ("perimeter", .num pf),
          ("coordinates", .arr cs2), ("analysisStatus", asv),
          ("createdAt", cav), ("updatedAt", uav)]) _ rfl rfl
        (checkAreaVal_pass _ (floatRoundMag a) harea2 ha0f ha1Mf)
      have c3 := checkUpdPerimeter_pass (Val.obj [
          ("id", idv), ("name", .str s), ("type", .str t), ("description", d),
          ("area", .num (.fin (floatRoundMag a))), ("perimeter", .num pf),
          ("coordinates", .arr cs2), ("analysisStatus", asv),
          ("createdAt", cav), ("updatedAt", uav)]) _ rfl rfl hpfv
      have c4 := checkUpdCoordinates_pass (Val.obj [
          ("id", idv), ("name", .str s), ("type", .str t), ("description", d),
          ("area", .num (.fin (floatRoundMag a))), ("perimeter", .num pf),
          ("coordinates", .arr cs2), ("analysisStatus", asv),
          ("createdAt", cav), ("updatedAt", uav)]) _ rfl rfl hcl
      have c5 := checkUpdType_pass (Val.obj [
          ("id", idv), ("name", .str s), ("type", .str t), ("description", d),
          ("area", .num (.fin (floatRoundMag a))), ("perimeter", .num pf),
          ("coordinates", .arr cs2), ("analysisStatus", asv),
          ("createdAt", cav), ("updatedAt", uav)]) t rfl rfl htmem
      have c6 := checkUpdDescription_pass (Val.obj [
          ("id", idv), ("name", .str s), ("type", .str t), ("description", d),
          ("area", .num (.fin (floatRoundMag a))), ("perimeter", .num pf),
          ("coordinates", .arr cs2), ("analysisStatus", asv),
          ("createdAt", cav), ("updatedAt", uav)]) d n rfl rfl hdlen hd500
      rw [validate_update_data]
      rw [show anyFieldIn (Val.obj [
          ("id", idv), ("name", .str s), ("type", .str t), ("description", d),
          ("area", .num (.fin (floatRoundMag a))), ("perimeter", .num pf),
          ("coordinates", .arr cs2), ("analysisStatus", asv),
          ("createdAt", cav), ("updatedAt", uav)]) updatable_fields = some true from rfl]
      rw [c1, c2, c3, c4, c5, c6]
    exact hval _ _ _ _

/-- Witness for C2 (amended) at a concrete stored record. -/
theorem format_revalidate_witness :
    ∃ fp : Item, format_property_for_response prevW = some fp ∧
      validate_update_data (.obj fp) = .valid := by
  refine format_revalidate prevW ⟨⟨"Fazenda Sol", rfl, by decide, by decide⟩,
    ⟨"fazenda", rfl, by decide⟩,
    ⟨.str "", 0, rfl, rfl, by decide⟩,
    ⟨100, rfl, by norm_num, by norm_num⟩,
    ⟨2000, rfl, by norm_num⟩,
    ⟨_, rfl, by decide, ?_, ⟨_, _, rfl, rfl, by decide⟩⟩⟩ ?_
  · intro c hc
    simp only [List.mem_cons, List.not_mem_nil, or_false] at hc
    rcases hc with rfl | rfl | rfl | rfl
    · exact ⟨0, 0, rfl, by decide⟩
    · exact ⟨1, 0, rfl, by decide⟩
    · exact ⟨1, 1, rfl, by decide⟩
    · exact ⟨0, 0, rfl, by decide⟩
  · intro q hq
    have h1 : tinyDouble ≤ 1 := tinyDouble_le_one
    rcases hq with hqa | hqp
    · have hq100 : q = 100 := by
        have heq : some (Val.dec (PyDec.fin (100 : ℚ))) =
            some (Val.dec (PyDec.fin q)) := by rw [← hqa]; rfl
        injection heq with h3
        injection h3 with h4
        injection h4 with h5
        exact h5.symm
      subst hq100
      linarith
    · have hq2000 : q = 2000 := by
        have heq : some (Val.dec (PyDec.fin (2000 : ℚ))) =
            some (Val.dec (PyDec.fin q)) := by rw [← hqp]; rfl
        injection heq with h3
        injection h3 with h4
        injection h4 with h5
        exact h5.symm
      subst hq2000
      linarith

/-- The record stored by creating with the area supplied as the string
`"1e-400"`: an exact decimal far below the double underflow threshold. -/
def tinyStored : Item := [
  ("userId", .str "u1"), ("propertyId", .str "prop_0123456789ab"),
  ("name", .str "Fazenda"), ("type", .str "fazenda"), ("description", .str ""),
  ("area", .dec (.fin (mkRat 1 (10 ^ 400)))),
  ("perimeter", .dec (.fin 100)),
  ("coordinates", .arr [
    .arr [.dec (.fin 0), .dec (.fin 0)],
    .arr [.dec (.fin 1), .dec (.fin 0)],
    .arr [.dec (.fin 1), .dec (.fin 1)],
    .arr [.dec (.fin 0), .dec (.fin 0)]]),
  ("analysisStatus", .str "pending"),
  ("createdAt", .str "2026-01-01T00:00:00+00:00"),
  ("updatedAt", .str "2026-01-01T00:00:00+00:00")]

def tinyBody : Val := .obj [
  ("name", .str "Fazenda"),
  ("area", .str "1e-400"),
  ("perimeter", .num (.fin 100)),
  ("coordinates", .arr [
    .arr [.num (.fin 0), .num (.fin 0)],
    .arr [.num (.fin 1), .num (.fin 0)],
    .arr [.num (.fin 1), .num (.fin 1)],
    .arr [.num (.fin 0), .num (.fin 0)]])]

def evTiny : Event := {
  httpMethod := "POST", path := "/properties", resource := "/properties",
  pathParameters := none, queryStringParameters := none,
  body := some (.json tinyBody), requestContext := ctxU1 }

theorem tinyArea_pos : 0 < mkRat 1 (10 ^ 400 : ℕ) := by
  rw [Rat.mkRat_eq_div]
  have h : (0 : ℚ) < ((10 ^ 400 : ℕ) : ℚ) := by
    exact_mod_cast pow_pos (show 0 < 10 by norm_num) 400
  exact div_pos (by norm_num) h

theorem tinyArea_le : mkRat 1 (10 ^ 400 : ℕ) ≤ 1000000 := by
  rw [Rat.mkRat_eq_div]
  have h : (0 : ℚ) < ((10 ^ 400 : ℕ) : ℚ) := by
    exact_mod_cast pow_pos (show 0 < 10 by norm_num) 400
  have h1 : ((1 : ℤ) : ℚ) / ((10 ^ 400 : ℕ) : ℚ) ≤ 1 := by
    rw [div_le_one h]
    exact_mod_cast Nat.one_le_iff_ne_zero.mpr (by positivity)
  calc ((1 : ℤ) : ℚ) / ((10 ^ 400 : ℕ) : ℚ) ≤ 1 := h1
  _ ≤ 1000000 := by norm_num

/-- C2 counterexample: creating a property with the area supplied as
`"1e-400"` stores `tinyStored`, which satisfies every creation-time
guarantee (`StoredValid`); yet formatting it to the response shape
converts the area to the float `0.0`, and re-validating the formatted
record as an update payload fails with the positive-area error — the
claim, as stated, is false at this stored record. -/
theorem format_revalidate_cex :
    (create_property envD [] evTiny ("u1")).2 =
      [(("u1", "prop_0123456789ab"), tinyStored)]
    ∧ StoredValid tinyStored
    ∧ (format_property_for_response tinyStored).map
        (fun fp => validate_update_data (.obj fp)) =
      some (.invalid msgAreaPos) := by
  refine ⟨rfl, ?_, rfl⟩
  refine ⟨⟨"Fazenda", rfl, by decide, by decide⟩,
    ⟨"fazenda", rfl, by decide⟩,
    ⟨.str "", 0, rfl, rfl, by decide⟩,
    ⟨mkRat 1 (10 ^ 400), rfl, tinyArea_pos, tinyArea_le⟩,
    ⟨100, rfl, by norm_num⟩,
    ⟨_, rfl, by decide, ?_, ⟨_, _, rfl, rfl, by decide⟩⟩⟩
  intro c hc
  simp only [List.mem_cons, List.not_mem_nil, or_false] at hc
  rcases hc with rfl | rfl | rfl | rfl
  · exact ⟨0, 0, rfl, by decide⟩
  · exact ⟨1, 0, rfl, by decide⟩
  · exact ⟨1, 1, rfl, by decide⟩
  · exact ⟨0, 0, rfl, by decide⟩

/-! ## C8: bulk import -/

/-- Every terminating run of the import loop yields exactly one record per
input item — a success or a failure — and one insertable item per success
record. -/
theorem importLoop_counts (env : Env) (uid : String) (pds : List Val) :
    ∀ (idx nDraw : ℕ) (succ fails : List Val) (items : List Item)
      (succ2 fails2 : List Val) (items2 : List Item),
    importLoop env uid pds idx nDraw succ fails items =
      some (succ2, fails2, items2) →
    succ2.length + fails2.length = succ.length + fails.length + pds.length ∧
    items2.length + succ.length = items.length + succ2.length := by
  induction pds with
  | nil =>
    intro idx nDraw succ fails items succ2 fails2 items2 h
    simp only [importLoop, Option.some.injEq, Prod.mk.injEq] at h
    obtain ⟨rfl, rfl, rfl⟩ := h
    simp
  | cons pd rest ih =>
    intro idx nDraw succ fails items succ2 fails2 items2 h
    rw [importLoop] at h
    cases hv : validate_property_data pd with
    | invalid m =>
      rw [hv] at h
      dsimp only at h
      cases hn : Val.dget pd ("name") (.str "Unnamed") with
      | none => rw [hn] at h; exact Option.noConfusion h
      | some nm =>
        rw [hn] at h
        obtain ⟨h1, h2⟩ := ih _ _ _ _ _ _ _ _ h
        simp only [List.length_append, List.length_cons, List.length_nil] at h1 h2 ⊢
        omega
    | exn =>
      rw [hv] at h
      dsimp only at h
      cases hn : Val.dget pd ("name") (.str "Unnamed") with
      | none => rw [hn] at h; exact Option.noConfusion h
      | some nm =>
        rw [hn] at h
        obtain ⟨h1, h2⟩ := ih _ _ _ _ _ _ _ _ h
        simp only [List.length_append, List.length_cons, List.length_nil] at h1 h2 ⊢
        omega
    | valid =>
      rw [hv] at h
      dsimp only at h
      cases hb : buildImportItem env.now uid (env.ids nDraw) pd with
      | none =>
        rw [hb] at h
        dsimp only at h
        cases hn : Val.dget pd ("name") (.str "Unnamed") with
        | none => rw [hn] at h; exact Option.noConfusion h
        | some nm =>
          rw [hn] at h
          obtain ⟨h1, h2⟩ := ih _ _ _ _ _ _ _ _ h
          simp only [List.length_append, List.length_cons, List.length_nil] at h1 h2 ⊢
          omega
      | some item =>
        rw [hb] at h
        dsimp only at h
        cases hn : Val.subscr pd ("name") with
        | none => rw [hn] at h; exact Option.noConfusion h
        | some nm =>
          rw [hn] at h
          obtain ⟨h1, h2⟩ := ih _ _ _ _ _ _ _ _ h
          simp only [List.length_append, List.length_cons, List.length_nil] at h1 h2 ⊢
          omega

/-- A batch containing any non-dict item aborts the whole loop: building
the failure record for such an item calls `.get` on it, which raises
inside the per-item `except` handler and escapes to the catch-all. -/
theorem importLoop_none_of_nonobj (env : Env) (uid : String) (pds : List Val)
    (hbad : ∃ pd ∈ pds, ∀ l : List (String × Val), pd ≠ .obj l) :
    ∀ (idx nDraw : ℕ) (succ fails : List Val) (items : List Item),
    importLoop env uid pds idx nDraw succ fails items = none := by
  induction pds with
  | nil =>
    obtain ⟨pd, hmem, _⟩ := hbad
    exact absurd hmem (List.not_mem_nil pd)
  | cons pd rest ih =>
    intro idx nDraw succ fails items
    rw [importLoop]
    obtain ⟨bad, hmem, hnotobj⟩ := hbad
    rcases List.mem_cons.mp hmem with rfl | hmem2
    · have hdget : Val.dget bad ("name") (.str "Unnamed") = none := by
        cases bad with
        | obj l => exact absurd rfl (hnotobj l)
        | null => rfl
        | bool b => rfl
        | num x => rfl
        | dec d => rfl
        | str s2 => rfl
        | arr l => rfl
      have hsub : Val.subscr bad ("name") = none := by
        cases bad with
        | obj l => exact absurd rfl (hnotobj l)
        | null => rfl
        | bool b => rfl
        | num x => rfl
        | dec d => rfl
        | str s2 => rfl
        | arr l => rfl
      have hbuild : buildImportItem env.now uid (env.ids nDraw) bad = none := by
        rw [buildImportItem, hsub]
      cases hv : validate_property_data bad with
      | invalid m =>
        dsimp only
        rw [hdget]
      | exn =>
        dsimp only
        rw [hdget]
      | valid =>
        dsimp only
        rw [hbuild]
        dsimp only
        rw [hdget]
    · have ihx := ih ⟨bad, hmem2, hnotobj⟩
      cases hv : validate_property_data pd with
      | invalid m =>
        dsimp only
        cases hn : Val.dget pd ("name") (.str "Unnamed") with
        | none => rfl
        | some nm => exact ihx _ _ _ _ _
      | exn =>
        dsimp only
        cases hn : Val.dget pd ("name") (.str "Unnamed") with
        | none => rfl
        | some nm => exact ihx _ _ _ _ _
      | valid =>
        dsimp only
        cases hb : buildImportItem env.now uid (env.ids nDraw) pd with
        | none =>
          dsimp only
          cases hn : Val.dget pd ("name") (.str "Unnamed") with
          | none => rfl
          | some nm => exact ihx _ _ _ _ _
        | some item =>
          dsimp only
          cases hn : Val.subscr pd ("name") with
          | none => rfl
          | some nm => exact ihx _ _ _ _ _

/-- A validation failure contributes its failure record and the loop goes on
with the remaining items: a per-item failure never aborts the batch. -/
theorem importLoop_skip_invalid (env : Env) (uid : String) (pd : Val)
    (rest : List Val) (idx nDraw : ℕ) (succ fails : List Val)
    (items : List Item) (m : String) (nm : Val)
    (hv : validate_property_data pd = .invalid m)
    (hn : Val.dget pd ("name") (.str "Unnamed") = some nm) :
    importLoop env uid (pd :: rest) idx nDraw succ fails items =
      importLoop env uid rest (idx + 1) nDraw succ
        (fails ++ [Val.obj [
          ("index", .num (.fin ((idx + 1 : ℕ) : ℚ))),
          ("name", nm), ("error", .str m)]]) items := by
  rw [importLoop, hv]
  dsimp only
  rw [hn]

/-- C8 (amended): bulk import caps the batch at 100 items — a larger batch
is rejected with 400 and the store untouched; for a non-empty batch of at
most 100 dict items, each item is validated independently (every item
contributes exactly one success or failure record and validation failures
never abort the loop), the 200 envelope truncates the failure records to
the first 10, and exactly the items that validated successfully are
inserted through the batch put path.  A batch containing any non-dict
item, however, aborts wholesale with the catch-all 500 and nothing
inserted: building its failure record raises inside the per-item handler;
see the counterexample. -/
theorem import_batch_spec (env : Env) (s : Store) (e : Event) (uid : String)
    (items : List Val) (body : Val)
    (hb : parseBody e = .ok body)
    (hp : Val.dget body ("properties") (.arr []) = some (.arr items))
    (hne : items ≠ []) :
    (100 < items.length →
      import_properties env s e uid =
        (create_response 400 (errBody ("Máximo 100 propriedades por importação")), s))
    ∧ (∀ (succ fails : List Val) (toIns : List Item),
        items.length ≤ 100 →
        importLoop env uid items 0 0 [] [] [] = some (succ, fails, toIns) →
        import_properties env s e uid =
          (create_response 200 (.obj [
            ("message", .str "Importação processada"),
            ("imported", .num (.fin (toIns.length : ℚ))),
            ("failed", .num (.fin (fails.length : ℚ))),
            ("total", .num (.fin (items.length : ℚ))),
            ("successful_imports", .arr succ),
            ("failed_imports", .arr (fails.take 10))]), putAll s toIns)
        ∧ succ.length + fails.length = items.length
        ∧ toIns.length = succ.length)
    ∧ (∀ (pd : Val) (rest : List Val) (idx nDraw : ℕ)
        (succ0 fails0 : List Val) (items0 : List Item) (m : String) (nm : Val),
        validate_property_data pd = .invalid m →
        Val.dget pd ("name") (.str "Unnamed") = some nm →
        importLoop env uid (pd :: rest) idx nDraw succ0 fails0 items0 =
          importLoop env uid rest (idx + 1) nDraw succ0
            (fails0 ++ [Val.obj [
              ("index", .num (.fin ((idx + 1 : ℕ) : ℚ))),
              ("name", nm), ("error", .str m)]]) items0)
    ∧ (items.length ≤ 100 →
        ∀ pd ∈ items, (∀ l : List (String × Val), pd ≠ .obj l) →
        import_properties env s e uid =
          (create_response 500 (errBody msgImportFail), s)) := by
  have ht : truthy (Val.arr items) = true := by
    cases items with
    | nil => exact absurd rfl hne
    | cons a as => rfl
  refine ⟨?_, ?_, ?_, ?_⟩
  · intro hlen
    rw [import_properties, hb]
    dsimp only
    rw [hp]
    dsimp only
    rw [show (!truthy (Val.arr items)) = false from by rw [ht]; rfl]
    rw [if_neg Bool.false_ne_true]
    dsimp only [pyLen]
    rw [if_pos hlen]
  · intro succ fails toIns hlen hloop
    obtain ⟨h1, h2⟩ := importLoop_counts env uid items 0 0 [] [] [] succ fails toIns hloop
    simp only [List.length_nil] at h1 h2
    refine ⟨?_, by omega, by omega⟩
    rw [import_properties, hb]
    dsimp only
    rw [hp]
    dsimp only
    rw [show (!truthy (Val.arr items)) = false from by rw [ht]; rfl]
    rw [if_neg Bool.false_ne_true]
    dsimp only [pyLen]
    rw [if_neg (not_lt.mpr hlen)]
    rw [hloop]
  · intro pd rest idx nDraw succ0 fails0 items0 m nm hv hn
    exact importLoop_skip_invalid env uid pd rest idx nDraw succ0 fails0 items0 m nm hv hn
  · intro hlen pd hmem hnotobj
    rw [import_properties, hb]
    dsimp only
    rw [hp]
    dsimp only
    rw [show (!truthy (Val.arr items)) = false from by rw [ht]; rfl]
    rw [if_neg Bool.false_ne_true]
    dsimp only [pyLen]
    rw [if_neg (not_lt.mpr hlen)]
    rw [importLoop_none_of_nonobj env uid items ⟨pd, hmem, hnotobj⟩ 0 0 [] [] []]

/-- A one-item batch whose sole item is the number `5`. -/
def evImpNum : Event := {
  httpMethod := "POST", path := "/properties/import",
  resource := "/properties/import",
  pathParameters := none, queryStringParameters := none,
  body := some (.json (.obj [("properties", .arr [.num (.fin 5)])])),
  requestContext := ctxU1 }

/-- C8 counterexample: a reachable batch containing a non-dict item (the
number `5`) aborts wholesale — building the failure record calls `.get`
on the item, which raises inside the per-item `except` handler and the
catch-all answers 500 — with nothing inserted, contradicting the claim
that individual failures are collected without aborting the batch. -/
theorem import_abort_cex :
    import_properties envD [] evImpNum ("u1") =
      (create_response 500 (errBody msgImportFail), []) := rfl

/-- An import item whose area fails validation (zero). -/
def impBad : Val := .obj [
  ("name", .str "Gleba Ruim"),
  ("area", .num (.fin 0)),
  ("perimeter", .num (.fin 1)),
  ("coordinates", .arr [
    .arr [.num (.fin 0), .num (.fin 0)],
    .arr [.num (.fin 1), .num (.fin 0)],
    .arr [.num (.fin 1), .num (.fin 1)],
    .arr [.num (.fin 0), .num (.fin 0)]])]

/-- A valid import item. -/
def impGood : Val := .obj [
  ("name", .str "Fazenda Boa"),
  ("area", .num (.fin 50)),
  ("perimeter", .num (.fin 30)),
  ("coordinates", .arr [
    .arr [.num (.fin 0), .num (.fin 0)],
    .arr [.num (.fin 1), .num (.fin 0)],
    .arr [.num (.fin 1), .num (.fin 1)],
    .arr [.num (.fin 0), .num (.fin 0)]])]

/-- A two-item import request: one failing, one valid item. -/
def evImp2 : Event := {
  httpMethod := "POST", path := "/properties/import",
  resource := "/properties/import",
  pathParameters := none, queryStringParameters := none,
  body := some (.json (.obj [("properties", .arr [impBad, impGood])])),
  requestContext := ctxU1 }

/-- The item the batch put inserts for `impGood`. -/
def impItemW : Item := [
  ("userId", .str "u1"),
  ("propertyId", .str "prop_0123456789ab"),
  ("name", .str "Fazenda Boa"),
  ("type", .str "fazenda"),
  ("description", .str ""),
  ("area", .dec (.fin 50)),
  ("perimeter", .dec (.fin 30)),
  ("coordinates", .arr [
    .arr [.dec (.fin 0), .dec (.fin 0)],
    .arr [.dec (.fin 1), .dec (.fin 0)],
    .arr [.dec (.fin 1), .dec (.fin 1)],
    .arr [.dec (.fin 0), .dec (.fin 0)]]),
  ("createdAt", .str "2026-01-01T00:00:00+00:00"),
  ("updatedAt", .str "2026-01-01T00:00:00+00:00")]

/-- Witness for C8 at a concrete two-item batch: the first item fails
validation and only contributes a failure record, the second is imported
and inserted. -/
theorem import_batch_spec_witness :
    import_properties envD [] evImp2 ("u1") =
      (create_response 200 (.obj [
        ("message", .str "Importação processada"),
        ("imported", .num (.fin ((1 : ℕ) : ℚ))),
        ("failed", .num (.fin ((1 : ℕ) : ℚ))),
        ("total", .num (.fin ((2 : ℕ) : ℚ))),
        ("successful_imports", .arr [Val.obj [
          ("index", .num (.fin ((2 : ℕ) : ℚ))),
          ("name", .str "Fazenda Boa"),
          ("id", .str "prop_0123456789ab")]]),
        ("failed_imports", .arr [Val.obj [
          ("index", .num (.fin ((1 : ℕ) : ℚ))),
          ("name", .str "Gleba Ruim"),
          ("error", .str msgAreaPos)]])]),
       [(("u1", "prop_0123456789ab"), impItemW)]) := by
  have h := (import_batch_spec envD [] evImp2 ("u1") [impBad, impGood]
    (.obj [("properties", .arr [impBad, impGood])])
    rfl rfl (List.cons_ne_nil _ _)).2.1
    [Val.obj [("index", .num (.fin ((2 : ℕ) : ℚ))),
      ("name", .str "Fazenda Boa"), ("id", .str "prop_0123456789ab")]]
    [Val.obj [("index", .num (.fin ((1 : ℕ) : ℚ))),
      ("name", .str "Gleba Ruim"), ("error", .str msgAreaPos)]]
    [impItemW] (by decide) rfl
  rw [h.1]
  rfl

/-! ## C9: statistics -/

/-- Ordered `qAdd` fold from zero: the spec-side exact Decimal sum. -/
def qSum (l : List ℚ) : ℚ := l.foldl qAdd 0

/-- The strictly positive areas of a page, in page order. -/
def posAreas (qs : List ℚ) : List ℚ := qs.filter (fun q => decide (0 < q))

/-- Spec-side `largest_area`: the maximum of the strictly positive areas,
`0` when there is none. -/
def qMaxPos (qs : List ℚ) : ℚ :=
  match posAreas qs with
  | [] => 0
  | a :: rest => rest.foldl max a

/-- Spec-side `smallest_area`: the minimum of the strictly positive areas,
`0` when there is none. -/
def qMinPos (qs : List ℚ) : ℚ :=
  match posAreas qs with
  | [] => 0
  | a :: rest => rest.foldl min a

/-- Spec-side type-count bump on string keys. -/
def bumpStr (acc : List (String × ℕ)) (t : String) : List (String × ℕ) :=
  match acc with
  | [] => [(t, 1)]
  | (k, n) :: rest => if k = t then (k, n + 1) :: rest else (k, n) :: bumpStr rest t

/-- Spec-side type distribution over the page, in first-occurrence order. -/
def strCounts (tys : List String) : List (String × ℕ) := tys.foldl bumpStr []

/-- First-match lookup in a string-keyed count list, `0` when absent. -/
def strLook : List (String × ℕ) → String → ℕ
  | [], _ => 0
  | (k, n) :: rest, t => if k = t then n else strLook rest t

/-- The accumulation loop computes the exact running sums and collects the
strictly positive areas in order. -/
theorem statsLoop_spec (props : List Item) (qs : List ℚ)
    (ha : List.Forall₂ (fun p q =>
      toDec ((flook p ("area")).getD (.num (.fin 0))) = some (.fin q)) props qs) :
    ∀ (ps : List ℚ),
    List.Forall₂ (fun p q =>
      toDec ((flook p ("perimeter")).getD (.num (.fin 0))) = some (.fin q)) props ps →
    ∀ (ta tp : ℚ) (areas : List ℚ),
    statsLoop props (.fin ta) (.fin tp) (areas.map PyDec.fin) =
      some (.fin (qs.foldl qAdd ta), .fin (ps.foldl qAdd tp),
        ((areas ++ posAreas qs).map PyDec.fin)) := by
  induction ha with
  | nil =>
    intro ps hp ta tp areas
    cases hp
    simp [statsLoop, posAreas]
  | @cons p b pl ql hpq htail ih =>
    intro ps hp ta tp areas
    cases hp with
    | @cons _ c _ ps1 hpp hptail =>
      rw [statsLoop, hpq, hpp]
      dsimp only [PyDec.decAdd, PyDec.decGt]
      by_cases hq : (0 : ℚ) < b
      · rw [decide_eq_true hq]
        dsimp only
        have h2 := ih ps1 hptail (qAdd ta b) (qAdd tp c) (areas ++ [b])
        simp only [List.map_append, List.map_cons, List.map_nil] at h2
        rw [h2]
        simp [posAreas, List.filter_cons, hq, List.append_assoc]
      · rw [decide_eq_false hq]
        dsimp only
        have h2 := ih ps1 hptail (qAdd ta b) (qAdd tp c) areas
        rw [h2]
        simp [posAreas, List.filter_cons, hq]

/-- The fold used by Python `max` agrees with `max` on finite Decimals. -/
theorem foldl_decLt_max (l : List ℚ) : ∀ a : ℚ,
    (l.map PyDec.fin).foldl (fun m x => if PyDec.decLt m x then x else m) (.fin a) =
      .fin (l.foldl max a) := by
  induction l with
  | nil => intro a; rfl
  | cons b rest ih =>
    intro a
    rw [List.map_cons, List.foldl_cons, List.foldl_cons]
    have hstep : (if PyDec.decLt (.fin a) (.fin b) then PyDec.fin b else .fin a) =
        .fin (max a b) := by
      dsimp only [PyDec.decLt]
      by_cases hab : a < b
      · simp [hab, max_eq_right hab.le]
      · simp [hab, max_eq_left (not_lt.mp hab)]
    rw [hstep]
    exact ih (max a b)

/-- The fold used by Python `min` agrees with `min` on finite Decimals. -/
theorem foldl_decLt_min (l : List ℚ) : ∀ a : ℚ,
    (l.map PyDec.fin).foldl (fun m x => if PyDec.decLt x m then x else m) (.fin a) =
      .fin (l.foldl min a) := by
  induction l with
  | nil => intro a; rfl
  | cons b rest ih =>
    intro a
    rw [List.map_cons, List.foldl_cons, List.foldl_cons]
    have hstep : (if PyDec.decLt (.fin b) (.fin a) then PyDec.fin b else .fin a) =
        .fin (min a b) := by
      dsimp only [PyDec.decLt]
      by_cases hab : b < a
      · simp [hab, min_eq_right hab.le]
      · simp [hab, min_eq_left (not_lt.mp hab)]
    rw [hstep]
    exact ih (min a b)

/-- The `largest_area` expression of `statsCore` equals `qMaxPos`. -/
theorem decMaxList_qMaxPos (qs : List ℚ) :
    (match decMaxList ((posAreas qs).map PyDec.fin) with
     | some m => m
     | none => PyDec.fin 0) = .fin (qMaxPos qs) := by
  rw [qMaxPos]
  cases hpos : posAreas qs with
  | nil => rfl
  | cons a rest =>
    rw [List.map_cons, decMaxList, foldl_decLt_max]

/-- The `smallest_area` expression of `statsCore` equals `qMinPos`. -/
theorem decMinList_qMinPos (qs : List ℚ) :
    (match decMinList ((posAreas qs).map PyDec.fin) with
     | some m => m
     | none => PyDec.fin 0) = .fin (qMinPos qs) := by
  rw [qMinPos]
  cases hpos : posAreas qs with
  | nil => rfl
  | cons a rest =>
    rw [List.map_cons, decMinList, foldl_decLt_min]

/-- One dict bump transfers from `Val`-keyed to string-keyed counts. -/
theorem bumpType_str (sc : List (String × ℕ)) (t : String) :
    bumpType (sc.map (fun p => (Val.str p.1, p.2))) (.str t) =
      (bumpStr sc t).map (fun p => (Val.str p.1, p.2)) := by
  induction sc with
  | nil => rfl
  | cons p rest ih =>
    obtain ⟨k, n⟩ := p
    by_cases hk : k = t
    · simp [bumpType, bumpStr, pyEq, hk]
    · simp [bumpType, bumpStr, pyEq, hk, ih]

/-- The type-count loop over a page of string types is the string-keyed
count fold. -/
theorem typeCounts_str (props : List Item) (tys : List String)
    (hty : List.Forall₂ (fun p t =>
      (flook p ("type")).getD (.str "outros") = .str t) props tys) :
    ∀ sc : List (String × ℕ),
    typeCounts props (sc.map (fun p => (Val.str p.1, p.2))) =
      some ((tys.foldl bumpStr sc).map (fun p => (Val.str p.1, p.2))) := by
  induction hty with
  | nil => intro sc; rfl
  | cons hpt htail ih =>
    intro sc
    rw [typeCounts, hpt]
    dsimp only [hashable]
    rw [if_pos rfl, bumpType_str, List.foldl_cons]
    exact ih _

/-- A bump adds one to the bumped key's count and leaves the others. -/
theorem strLook_bumpStr (sc : List (String × ℕ)) (t u : String) :
    strLook (bumpStr sc t) u = strLook sc u + (if t = u then 1 else 0) := by
  induction sc with
  | nil =>
    by_cases h : t = u <;> simp [bumpStr, strLook, h]
  | cons p rest ih =>
    obtain ⟨k, n⟩ := p
    by_cases hkt : k = t
    · subst hkt
      by_cases hku : k = u
      · subst hku; simp [bumpStr, strLook]
      · simp [bumpStr, strLook, hku]
    · by_cases hku : k = u
      · subst hku
        have htk : ¬ t = k := fun h => hkt h.symm
        simp [bumpStr, strLook, hkt, htk]
      · simp [bumpStr, strLook, hkt, hku, ih]

/-- The distribution counts occurrences: each type's bucket is its
multiplicity in the page. -/
theorem strCounts_count (tys : List String) (u : String) :
    strLook (strCounts tys) u = tys.count u := by
  suffices h : ∀ sc, strLook (tys.foldl bumpStr sc) u = strLook sc u + tys.count u by
    simpa [strCounts, strLook] using h []
  induction tys with
  | nil => intro sc; simp
  | cons t rest ih =>
    intro sc
    rw [List.foldl_cons, ih (bumpStr sc t), strLook_bumpStr]
    by_cases htu : t = u <;> simp [List.count_cons, htu] <;> omega

/-- The fold of `max` dominates its seed and every list element. -/
theorem le_foldl_max (l : List ℚ) : ∀ a : ℚ,
    a ≤ l.foldl max a ∧ ∀ x ∈ l, x ≤ l.foldl max a := by
  induction l with
  | nil => intro a; exact ⟨le_refl a, by simp⟩
  | cons b rest ih =>
    intro a
    rw [List.foldl_cons]
    obtain ⟨h1, h2⟩ := ih (max a b)
    refine ⟨le_trans (le_max_left a b) h1, ?_⟩
    intro x hx
    rcases List.mem_cons.mp hx with rfl | hx2
    · exact le_trans (le_max_right a x) h1
    · exact h2 x hx2

/-- The fold of `min` is below its seed and every list element. -/
theorem foldl_min_le (l : List ℚ) : ∀ a : ℚ,
    l.foldl min a ≤ a ∧ ∀ x ∈ l, l.foldl min a ≤ x := by
  induction l with
  | nil => intro a; exact ⟨le_refl a, by simp⟩
  | cons b rest ih =>
    intro a
    rw [List.foldl_cons]
    obtain ⟨h1, h2⟩ := ih (min a b)
    refine ⟨le_trans h1 (min_le_left a b), ?_⟩
    intro x hx
    rcases List.mem_cons.mp hx with rfl | hx2
    · exact le_trans h1 (min_le_right a x)
    · exact h2 x hx2

/-- The fold of `max` is the seed or a list element. -/
theorem foldl_max_mem (l : List ℚ) : ∀ a : ℚ,
    l.foldl max a = a ∨ l.foldl max a ∈ l := by
  induction l with
  | nil => intro a; left; rfl
  | cons b rest ih =>
    intro a
    rw [List.foldl_cons]
    rcases ih (max a b) with h | h
    · rcases max_cases a b with ⟨he, _⟩ | ⟨he, _⟩
      · left; rw [h, he]
      · right; rw [h, he]; exact List.mem_cons_self _ _
    · right; exact List.mem_cons_of_mem _ h

/-- The fold of `min` is the seed or a list element. -/
theorem foldl_min_mem (l : List ℚ) : ∀ a : ℚ,
    l.foldl min a = a ∨ l.foldl min a ∈ l := by
  induction l with
  | nil => intro a; left; rfl
  | cons b rest ih =>
    intro a
    rw [List.foldl_cons]
    rcases ih (min a b) with h | h
    · rcases min_cases a b with ⟨he, _⟩ | ⟨he, _⟩
      · left; rw [h, he]
      · right; rw [h, he]; exact List.mem_cons_self _ _
    · right; exact List.mem_cons_of_mem _ h

/-- The empty-page guard and exact division of the average expression. -/
theorem avg_expr_eq (props : List Item) (q : ℚ) :
    (if props.isEmpty then some (PyDec.fin 0)
     else (PyDec.fin q).decDivNat props.length) =
      some (.fin (if props.isEmpty then 0 else qDivNat q props.length)) := by
  cases props with
  | nil => rfl
  | cons p rest => simp [PyDec.decDivNat]

/-- C9: on a page whose records carry finite Decimal-convertible areas and
perimeters and string types, the aggregator returns the page length, the
exact `qAdd`-summed totals and the average (`0` on the empty page)
converted to float (`strToFloat`) only at the output edge, the max/min
over the strictly positive areas (`0` when there is none, a member of and
a bound on those areas otherwise), and the first-occurrence type
distribution whose buckets count each type's multiplicity in the page. -/
theorem calculate_stats_spec (props : List Item) (qs ps : List ℚ)
    (tys : List String)
    (ha : List.Forall₂ (fun p q =>
      toDec ((flook p ("area")).getD (.num (.fin 0))) = some (.fin q)) props qs)
    (hpe : List.Forall₂ (fun p q =>
      toDec ((flook p ("perimeter")).getD (.num (.fin 0))) = some (.fin q)) props ps)
    (hty : List.Forall₂ (fun p t =>
      (flook p ("type")).getD (.str "outros") = .str t) props tys) :
    calculate_stats props = [
      ("totalProperties", .num (.fin (props.length : ℚ))),
      ("totalArea", .num (strToFloat (qSum qs))),
      ("totalPerimeter", .num (strToFloat (qSum ps))),
      ("averageArea", .num (strToFloat
        (if props.isEmpty then 0 else qDivNat (qSum qs) props.length))),
      ("largestProperty", .num (strToFloat (qMaxPos qs))),
      ("smallestProperty", .num (strToFloat (qMinPos qs))),
      ("typeDistribution", .obj ((strCounts tys).map
        (fun p => (p.1, Val.num (.fin (p.2 : ℚ))))))]
    ∧ (∀ u : String, strLook (strCounts tys) u = tys.count u)
    ∧ (posAreas qs = [] → qMaxPos qs = 0 ∧ qMinPos qs = 0)
    ∧ (∀ x ∈ posAreas qs, x ≤ qMaxPos qs ∧ qMinPos qs ≤ x)
    ∧ (posAreas qs ≠ [] → qMaxPos qs ∈ posAreas qs ∧ qMinPos qs ∈ posAreas qs) := by
  refine ⟨?_, fun u => strCounts_count tys u, ?_, ?_, ?_⟩
  · have hloop := statsLoop_spec props qs ha ps hpe 0 0 []
    simp only [List.map_nil, List.nil_append] at hloop
    have htc := typeCounts_str props tys hty []
    simp only [List.map_nil] at htc
    rw [calculate_stats, statsCore, hloop]
    dsimp only
    rw [htc]
    dsimp only
    rw [decMaxList_qMaxPos, decMinList_qMinPos]
    rw [show List.foldl qAdd 0 qs = qSum qs from rfl,
        show List.foldl qAdd 0 ps = qSum ps from rfl]
    rw [avg_expr_eq]
    dsimp only
    rw [statsFloats]
    dsimp only [floatOfDec]
    rw [List.map_map]
    rfl
  · intro h
    rw [qMaxPos, qMinPos, h]
    exact ⟨rfl, rfl⟩
  · intro x hx
    rw [qMaxPos, qMinPos]
    cases hpos : posAreas qs with
    | nil => rw [hpos] at hx; exact absurd hx (List.not_mem_nil x)
    | cons a rest =>
      rw [hpos] at hx
      obtain ⟨hm1, hm2⟩ := le_foldl_max rest a
      obtain ⟨hn1, hn2⟩ := foldl_min_le rest a
      rcases List.mem_cons.mp hx with rfl | hx2
      · exact ⟨hm1, hn1⟩
      · exact ⟨hm2 x hx2, hn2 x hx2⟩
  · intro h
    rw [qMaxPos, qMinPos]
    cases hpos : posAreas qs with
    | nil => exact absurd hpos h
    | cons a rest =>
      dsimp only
      constructor
      · rcases foldl_max_mem rest a with he | he
        · rw [he]; exact List.mem_cons_self _ _
        · exact List.mem_cons_of_mem _ he
      · rcases foldl_min_mem rest a with he | he
        · rw [he]; exact List.mem_cons_self _ _
        · exact List.mem_cons_of_mem _ he

/-- A page record with area `10`. -/
def pageA10 : Item := [("area", .num (.fin 10)), ("perimeter", .num (.fin 40))]

/-- A page record with area `30`. -/
def pageA30 : Item := [("area", .num (.fin 30)), ("perimeter", .num (.fin 60))]

/-- Witness for C9 on the spec's example page of areas `[10, 30]`:
total `40`, average `20`, largest `30`, smallest `10`, count `2`, both
types defaulting to `"outros"`. -/
theorem calculate_stats_spec_witness :
    calculate_stats [pageA10, pageA30] = [
      ("totalProperties", .num (.fin 2)),
      ("totalArea", .num (.fin 40)),
      ("totalPerimeter", .num (.fin 100)),
      ("averageArea", .num (.fin 20)),
      ("largestProperty", .num (.fin 30)),
      ("smallestProperty", .num (.fin 10)),
      ("typeDistribution", .obj [("outros", .num (.fin 2))])] := by
  have h := (calculate_stats_spec [pageA10, pageA30] [10, 30] [40, 60]
    ["outros", "outros"]
    (List.Forall₂.cons rfl (List.Forall₂.cons rfl List.Forall₂.nil))
    (List.Forall₂.cons rfl (List.Forall₂.cons rfl List.Forall₂.nil))
    (List.Forall₂.cons rfl (List.Forall₂.cons rfl List.Forall₂.nil))).1
  rw [h]
  rfl

end PropReg
